import Mathlib

/-!
Verification development for the Phusion Passenger ApplicationPool2 core
(`ext/common/ApplicationPool2/Pool.h`, which also carries `Process.h`, and the
`Spawner.h` negotiation code).  The C++ data structures and the operations the
claims touch are embedded shallowly: machine integers become `Nat` (the C++
fields involved are non-negative counters and microsecond timestamps), the
pool's mutable object graph becomes a pure state record, and each C++ member
function becomes a state-passing function.  Code of the repository that is
referenced but whose file is absent (Group.h, SuperGroup.h, Socket.h, the
Utils headers) is modelled from the specification; each such definition says
so in its doc comment.
-/

namespace Passenger

/-- C's INT_MAX, as used by `Process::utilization` (`climits`). -/
def intMax : Nat := 2147483647

/-- `Process::LifeStatus` from Process.h: ALIVE, SHUTTING_DOWN, SHUT_DOWN. -/
inductive PLifeStatus
  | ALIVE
  | SHUTTING_DOWN
  | SHUT_DOWN
deriving DecidableEq, Repr

/-- `Process::EnabledStatus` from Process.h. -/
inductive PEnabledStatus
  | ENABLED
  | DISABLING
  | DISABLED
deriving DecidableEq, Repr

/-- SuperGroup states.  Modelled from the spec: SuperGroup.h is absent from
src; §3 gives `state ∈ {INITIALIZING, READY, RESTARTING, DESTROYING,
DESTROYED}`. -/
inductive SGState
  | INITIALIZING
  | READY
  | RESTARTING
  | DESTROYING
  | DESTROYED
deriving DecidableEq, Repr

/-- A listen socket of a worker process.  Modelled from the spec: Socket.h is
absent from src; §3 gives name, address, protocol tag, concurrency limit
(0 = unlimited) and current session count. -/
structure Socket where
  name : String
  address : String
  protocol : String
  concurrency : Nat
  sessions : Nat
deriving DecidableEq, Repr

/-- Socket utilization.  Modelled from the spec: Socket.h is absent from src;
the glossary maps utilization into `[0, INT_MAX]` from idle to saturated, with
the same shape as `Process::utilization` (idle → 0, unlimited-concurrency busy
→ 1, otherwise proportional). -/
def Socket.utilization (s : Socket) : Nat :=
  if s.concurrency = 0 then
    if s.sessions = 0 then 0 else 1
  else
    s.sessions * intMax / s.concurrency

/-- Socket saturation test used by `Process::newSession`.  Modelled from the
spec: Socket.h is absent from src; §3 gives a concurrency limit with 0 meaning
unlimited, so a socket is at full capacity when its limit is non-zero and the
session count has reached it (the shape of `Process::atFullUtilization`). -/
def Socket.atFullCapacity (s : Socket) : Bool :=
  s.concurrency ≠ 0 && s.sessions ≥ s.concurrency

/-- A session: one checked-out connection to one socket of one process
(Session.h is summarised in the spec §3; only its identity matters here). -/
structure Session where
  procGupid : String
  socketName : String
deriving DecidableEq, Repr

/-- An application worker process (Process.h).  The fields are the ones the
verified operations read or write: identity, the Pool-guarded counters, the
life/enabled status, the cached `m_osProcessExists`, and the `sessionSockets`
priority queue (a list of stored-priority/socket pairs; the C++ code stores
the priority inside the queue at push time). -/
structure Process where
  pid : Nat
  gupid : String
  sessions : Nat
  processed : Nat
  concurrency : Nat
  lastUsed : Nat
  lifeStatus : PLifeStatus
  enabled : PEnabledStatus
  dummy : Bool
  m_osProcessExists : Bool
  sessionSockets : List (Nat × Socket)
deriving DecidableEq, Repr

/-- `Process::utilization` (Process.h): 0 sessions → 0; unlimited concurrency
and busy → 1; otherwise `sessions * INT_MAX / concurrency`.  The C++ third
branch computes `(int)(((long long) sessions * INT_MAX) / (double)
concurrency)`; it is embedded as the exact truncated integer quotient.  The
only use the pool code makes of this value in the verified operations is the
test `utilization() == 0`, on which the two computations agree: for
`sessions ≥ 1` and `concurrency ≤ INT_MAX` the exact quotient is at least 1,
and the double division of a value that is at least `1 + 2⁻³¹` cannot round
below 1. -/
def Process.utilization (p : Process) : Nat :=
  if p.concurrency = 0 then
    if p.sessions = 0 then 0 else 1
  else
    p.sessions * intMax / p.concurrency

/-- `Process::atFullUtilization` (Process.h): `concurrency != 0 && sessions >=
concurrency`. -/
def Process.atFullUtilization (p : Process) : Bool :=
  p.concurrency ≠ 0 && p.sessions ≥ p.concurrency

/-- `Process::osProcessExists` (Process.h).  The two syscall observations are
passed as oracles: `killZero` is `kill(pid, 0) == 0` and `errnoESRCH` is
`errno == ESRCH` after a failed kill.  The C++ caches the result in the
mutable `m_osProcessExists`; the model returns the updated process. -/
def Process.osProcessExists (p : Process) (killZero errnoESRCH : Bool) :
    Bool × Process :=
  if !p.dummy && p.m_osProcessExists then
    let v := killZero || !errnoESRCH
    (v, { p with m_osProcessExists := v })
  else
    (false, p)

/-- `Process::canBeShutDown` (Process.h): `sessions == 0 && !osProcessExists()`,
with the same syscall oracles threaded through. -/
def Process.canBeShutDown (p : Process) (killZero errnoESRCH : Bool) :
    Bool × Process :=
  let (ex, p') := p.osProcessExists killZero errnoESRCH
  (p.sessions == 0 && !ex, p')

/-- Runs `osProcessExists` repeatedly with a list of syscall-oracle pairs,
collecting the results (models repeated polling by the metrics collector). -/
def osRunAll : Process → List (Bool × Bool) → List Bool × Process
  | p, [] => ([], p)
  | p, (k, e) :: rest =>
    let (b, p') := p.osProcessExists k e
    let (bs, p'') := osRunAll p' rest
    (b :: bs, p'')

/-- Pops the element with the least priority from a queue represented as a
list, returning it and the remaining queue; the first minimal element wins
ties.  This models `PriorityQueue::pop` (Utils/PriorityQueue.h, absent from
src): a binary heap pops some element of minimal key. -/
def popMinBy {α : Type} (f : α → Nat) : List α → Option (α × List α)
  | [] => none
  | x :: xs =>
    if xs.all (fun y => decide (f x ≤ f y)) then
      some (x, xs)
    else
      match popMinBy f xs with
      | some (m, rest) => some (m, x :: rest)
      | none => some (x, xs)

/-- `Process::newSession` (Process.h): pop the least-utilized session socket;
if it is at full capacity return null (the socket stays popped); otherwise
increment the socket's and the process's session counts, bump `processed`,
re-push the socket keyed by its new utilization, set `lastUsed` to the current
time and return a session bound to the socket. -/
def Process.newSession (now : Nat) (p : Process) : Option Session × Process :=
  match popMinBy Prod.fst p.sessionSockets with
  | none => (none, p)
  | some ((_, so), rest) =>
    if so.atFullCapacity then
      (none, { p with sessionSockets := rest })
    else
      let so' := { so with sessions := so.sessions + 1 }
      (some ⟨p.gupid, so.name⟩,
       { p with
           sessions := p.sessions + 1,
           processed := p.processed + 1,
           lastUsed := now,
           sessionSockets := (so'.utilization, so') :: rest })

/-- The request key (Options.h, summarised in spec §3).  Only the fields the
verified pool operations read are carried: the derived app-group name, the
`allowTrashingNonIdleProcesses` flag consulted by `Pool::asyncGet`, and the
per-group process bounds consulted by the garbage collector and
`shouldSpawn`. -/
structure Options where
  appGroupName : String
  allowTrashingNonIdleProcesses : Bool
  minProcesses : Nat
  maxProcesses : Nat
deriving DecidableEq, Repr

/-- A `GetWaiter` (Common.h): the persisted Options plus the callback, the
latter represented by an identifier. -/
structure GetWaiter where
  options : Options
  callbackId : Nat
deriving DecidableEq, Repr

/-- A Group.  Modelled from the spec: Group.h is absent from src; §3 gives the
app-group name, the current Options, the enabled/disabling/disabled lists, the
`detachedProcesses` collection (Process.h class comment), the FIFO
`getWaitlist`, the restart flag, and spawning-in-progress (represented by a
count, since spawning reserves capacity §4.1). -/
structure Group where
  name : String
  options : Options
  enabledProcesses : List Process
  disablingProcesses : List Process
  disabledProcesses : List Process
  detachedProcesses : List Process
  getWaitlist : List GetWaiter
  spawningCount : Nat
  restarting : Bool
deriving DecidableEq, Repr

/-- A SuperGroup.  Modelled from the spec: SuperGroup.h is absent from src;
§3 gives name, state, component Groups and an own `getWaitlist` populated
while INITIALIZING. -/
structure SuperGroup where
  name : String
  state : SGState
  groups : List Group
  getWaitlist : List GetWaiter
deriving DecidableEq, Repr

/-- The Pool (Pool.h): capacity ceiling `max`, `maxIdleTime`, the SuperGroup
map (an association list keyed by `SuperGroup.name`, mirroring
`StringMap<SuperGroupPtr>`) and the top-level `getWaitlist`. -/
structure Pool where
  max : Nat
  maxIdleTime : Nat
  superGroups : List SuperGroup
  getWaitlist : List GetWaiter
deriving DecidableEq, Repr

/-- A located reference to a process: the names of its SuperGroup and Group
plus the process itself.  C++ passes a `ProcessPtr` and recovers the Group via
`process->getGroup()`; the shallow embedding carries the location instead. -/
structure PRef where
  sgName : String
  gName : String
  proc : Process
deriving DecidableEq, Repr

/-- The exception kinds the pool hands to get-waiters (Exceptions.h; only
`GetAbortedException` is relevant to the claims). -/
inductive ErrKind
  | getAborted
deriving DecidableEq, Repr

/-- Observable effects that C++ schedules as post-lock actions: invoking a get
callback (with an optional session and an optional exception), and the release
of the Pool lock.  In every operation trace the unlock event precedes the
actions that `runAllActions` executes, mirroring the `l.unlock();
runAllActions(actions);` pattern of Pool.h. -/
inductive Event
  | callback (cb : Nat) (session : Option Session) (err : Option ErrKind)
  | unlock
deriving DecidableEq, Repr

/-- The three process lists of a group in the order `Pool::getProcesses`
visits them (enabled, disabling, disabled); detached processes are not
listed. -/
def Group.listedProcs (g : Group) : List Process :=
  g.enabledProcesses ++ g.disablingProcesses ++ g.disabledProcesses

/-- Group process count.  Modelled from the spec §4.1: the sum of the three
lists plus processes currently being spawned (spawning reserves capacity). -/
def Group.processCount (g : Group) : Nat :=
  g.enabledProcesses.length + g.disablingProcesses.length +
    g.disabledProcesses.length + g.spawningCount

/-- Group utilization.  Modelled from the spec §4.1: `utilization` counts the
same set as `processCount`. -/
def Group.utilization (g : Group) : Nat := g.processCount

/-- SuperGroup utilization.  Modelled from the spec: the sum over the Groups,
plus one while INITIALIZING — an INITIALIZING SuperGroup is about to spawn its
first process and spawning-in-progress reserves capacity (§4.1; this is what
makes the `assert(atFullCapacity(false))` at the end of `Pool::asyncGet`'s
eviction branch hold). -/
def SuperGroup.utilization (sg : SuperGroup) : Nat :=
  (sg.groups.map Group.utilization).sum +
    (if sg.state = SGState.INITIALIZING then 1 else 0)

/-- `Pool::utilization` (Pool.h): the sum of the SuperGroups' utilizations. -/
def Pool.utilization (s : Pool) : Nat :=
  (s.superGroups.map SuperGroup.utilization).sum

/-- `Pool::atFullCapacity` (Pool.h): `utilization() >= max`. -/
def Pool.atFullCapacityB (s : Pool) : Bool :=
  decide (s.max ≤ s.utilization)

/-- `Pool::getProcesses` (Pool.h): for every SuperGroup and Group, the
enabled, disabling and disabled processes in that order, located. -/
def Pool.getProcesses (s : Pool) : List PRef :=
  s.superGroups.flatMap fun sg =>
    sg.groups.flatMap fun g =>
      g.listedProcs.map fun p => ⟨sg.name, g.name, p⟩

/-- `Pool::findProcessByGupid` (Pool.h): the first listed process whose gupid
matches. -/
def Pool.findProcessByGupid (s : Pool) (gupid : String) : Option PRef :=
  s.getProcesses.find? fun pr => pr.proc.gupid == gupid

/-- `Pool::findMatchingSuperGroup` (Pool.h): `superGroups.get(options.
getAppGroupName())`. -/
def Pool.findMatchingSuperGroup (s : Pool) (o : Options) : Option SuperGroup :=
  s.superGroups.find? fun sg => sg.name == o.appGroupName

/-- All enabled processes of the pool, located, in the iteration order of
`Pool::findOldestIdleProcess` / `Pool::findBestProcessToTrash`. -/
def Pool.allEnabled (s : Pool) : List PRef :=
  s.superGroups.flatMap fun sg =>
    sg.groups.flatMap fun g =>
      g.enabledProcesses.map fun p => ⟨sg.name, g.name, p⟩

/-- One step of the scan in `Pool::findOldestIdleProcess` (Pool.h 242-267):
replace the candidate when the examined process has `utilization() == 0` and
is strictly older (or there is no candidate yet). -/
def foiStep (acc : Option PRef) (c : PRef) : Option PRef :=
  match acc with
  | none => if c.proc.utilization = 0 then some c else none
  | some b =>
    if c.proc.utilization = 0 ∧ c.proc.lastUsed < b.proc.lastUsed then some c
    else some b

/-- `Pool::findOldestIdleProcess` (Pool.h 242-267). -/
def Pool.findOldestIdleProcess (s : Pool) : Option PRef :=
  s.allEnabled.foldl foiStep none

/-- One step of the scan in `Pool::findBestProcessToTrash` (Pool.h 269-292):
keep the strictly least-recently-used process regardless of idleness. -/
def fbtStep (acc : Option PRef) (c : PRef) : Option PRef :=
  match acc with
  | none => some c
  | some b => if c.proc.lastUsed < b.proc.lastUsed then some c else some b

/-- `Pool::findBestProcessToTrash` (Pool.h 269-292). -/
def Pool.findBestProcessToTrash (s : Pool) : Option PRef :=
  s.allEnabled.foldl fbtStep none

/-- Applies `f` to every group named `gName` inside every SuperGroup named
`sgName` (the embedding's way of mutating one group in place). -/
def Pool.updateGroup (s : Pool) (sgName gName : String) (f : Group → Group) :
    Pool :=
  { s with
      superGroups := s.superGroups.map fun sg =>
        if sg.name = sgName then
          { sg with
              groups := sg.groups.map fun g =>
                if g.name = gName then f g else g }
        else sg }

/-- Replaces every SuperGroup named `n` by `f` applied to it. -/
def Pool.replaceSG (s : Pool) (n : String) (f : SuperGroup → SuperGroup) :
    Pool :=
  { s with
      superGroups := s.superGroups.map fun sg =>
        if sg.name = n then f sg else sg }

/-- Looks up a group by SuperGroup name and Group name. -/
def Pool.lookupGroup (s : Pool) (loc : String × String) : Option Group :=
  (s.superGroups.find? fun sg => sg.name == loc.1).bind fun sg =>
    sg.groups.find? fun g => g.name == loc.2

/-- The locations of all groups, in iteration order. -/
def Pool.groupLocs (s : Pool) : List (String × String) :=
  s.superGroups.flatMap fun sg => sg.groups.map fun g => (sg.name, g.name)

/-- `Group::detach`.  Modelled from the spec: Group.h is absent from src; §4.2
says detach removes the process from its list and, if ALIVE, marks it
SHUTTING_DOWN; the Process.h class comment says such processes are stored in
the Group's `detachedProcesses`.  The process is identified by gupid (C++
identifies it by pointer; gupids are globally unique, spec §3). -/
def Group.detach (gupid : String) (g : Group) : Group :=
  let moved := g.listedProcs.filter fun p => p.gupid == gupid
  { g with
      enabledProcesses := g.enabledProcesses.filter fun p => p.gupid != gupid,
      disablingProcesses :=
        g.disablingProcesses.filter fun p => p.gupid != gupid,
      disabledProcesses := g.disabledProcesses.filter fun p => p.gupid != gupid,
      detachedProcesses :=
        g.detachedProcesses ++
          moved.map fun p => { p with lifeStatus := PLifeStatus.SHUTTING_DOWN } }

/-- `Group::spawn`'s admission part.  Modelled from the spec §4.2: if already
spawning, no-op, else start one asynchronous spawn (which reserves capacity);
the capacity checks are done by the callers. -/
def Group.spawnTrigger (g : Group) : Group :=
  if g.spawningCount > 0 then g else { g with spawningCount := g.spawningCount + 1 }

/-- Whether every enabled process is at full utilization.  Modelled from the
spec §4.2 (`allProcessesAtFullUtilization` in `shouldSpawn`). -/
def Group.allAtFullUtilization (g : Group) : Bool :=
  g.enabledProcesses.all Process.atFullUtilization

/-- `Group::shouldSpawn`.  Modelled from the spec §4.2: `enabledCount <
minProcesses ∨ (allProcessesAtFullUtilization ∧ enabledCount <
maxProcessesForGroup ∧ pool.processCount < pool.max)`. -/
def Group.shouldSpawn (poolCount poolMax : Nat) (g : Group) : Bool :=
  g.enabledProcesses.length < g.options.minProcesses ||
    (g.allAtFullUtilization && g.enabledProcesses.length < g.options.maxProcesses
      && poolCount < poolMax)

/-- `Group::isWaitingForCapacity`.  Modelled from the spec (Pool.h's
`possiblySpawnMoreProcessesForExistingGroups` comment: groups that are waiting
for capacity to become available): the group has get-waiters but no spawn in
progress. -/
def Group.isWaitingForCapacity (g : Group) : Bool :=
  !g.getWaitlist.isEmpty && g.spawningCount == 0

/-- `Group::get`.  Modelled from the spec §4.2: while restarting, queue the
waiter; otherwise take the least-utilized enabled process; if it has spare
utilization create a session on it (bumping `sessions`, `processed` and
`lastUsed`); if there is none or the best is saturated, queue the waiter (the
accompanying spawn request only reserves capacity and is performed by the
callers through `spawnTrigger`). -/
def Group.get (now : Nat) (g : Group) (w : GetWaiter) :
    Option Session × Group :=
  if g.restarting then
    (none, { g with getWaitlist := g.getWaitlist ++ [w] })
  else
    match popMinBy Process.utilization g.enabledProcesses with
    | none => (none, { g with getWaitlist := g.getWaitlist ++ [w] })
    | some (p, rest) =>
      if p.atFullUtilization then
        (none, { g with getWaitlist := g.getWaitlist ++ [w] })
      else
        let p' := { p with
            sessions := p.sessions + 1,
            processed := p.processed + 1,
            lastUsed := now }
        (some ⟨p.gupid, ""⟩, { g with enabledProcesses := p' :: rest })

/-- `SuperGroup::get`.  Modelled from the spec: while READY delegate to the
default (first) Group; while INITIALIZING (or any other non-READY state) queue
the waiter on the SuperGroup's own `getWaitlist` and return null (§3: the
SuperGroup wait list is populated while INITIALIZING). -/
def SuperGroup.get (now : Nat) (sg : SuperGroup) (w : GetWaiter) :
    Option Session × SuperGroup :=
  match sg.state with
  | SGState.READY =>
    match sg.groups with
    | [] => (none, { sg with getWaitlist := sg.getWaitlist ++ [w] })
    | g :: rest =>
      let (se, g') := g.get now w
      (se, { sg with groups := g' :: rest })
  | _ => (none, { sg with getWaitlist := sg.getWaitlist ++ [w] })

/-- `Pool::createSuperGroup` (Pool.h 790-796): construct the SuperGroup
(INITIALIZING, with no groups yet — `SuperGroup::initialize` starts the first
group asynchronously, SuperGroup.h being modelled from the spec) and insert it
into the map under the app-group name. -/
def Pool.createSuperGroup (s : Pool) (o : Options) : Pool :=
  { s with
      superGroups :=
        s.superGroups ++ [⟨o.appGroupName, SGState.INITIALIZING, [], []⟩] }

/-- `Pool::createSuperGroupAndAsyncGetFromIt` (Pool.h 798-809): create the
SuperGroup and call `get` on it, which queues the callback on the new
SuperGroup's wait list (the source asserts the returned session is null). -/
def Pool.createSuperGroupAndAsyncGetFromIt (now : Nat) (s : Pool) (o : Options)
    (cb : Nat) : Pool :=
  let s1 := s.createSuperGroup o
  s1.replaceSG o.appGroupName fun sg => (sg.get now ⟨o, cb⟩).2

/-- One iteration of the loop in `Pool::assignSessionsToGetWaiters` (Pool.h
298-327), threading the pool, the new wait list and the post-lock actions. -/
def assignStep (now : Nat) (acc : Pool × List GetWaiter × List Event)
    (w : GetWaiter) : Pool × List GetWaiter × List Event :=
  match acc.1.findMatchingSuperGroup w.options with
  | some sg =>
    match (sg.get now w).1 with
    | some session =>
      (acc.1.replaceSG sg.name fun _ => (sg.get now w).2, acc.2.1,
       acc.2.2 ++ [Event.callback w.callbackId (some session) none])
    | none =>
      (acc.1.replaceSG sg.name fun _ => (sg.get now w).2, acc.2.1, acc.2.2)
  | none =>
    if !acc.1.atFullCapacityB then
      (acc.1.createSuperGroupAndAsyncGetFromIt now w.options w.callbackId,
       acc.2.1, acc.2.2)
    else
      (acc.1, acc.2.1 ++ [w], acc.2.2)

/-- `Pool::assignSessionsToGetWaiters` (Pool.h 298-327): walk the wait list in
FIFO order; delegate to an existing SuperGroup, create one if capacity allows,
or keep the waiter; finally replace `getWaitlist` with the kept waiters. -/
def Pool.assignSessionsToGetWaiters (now : Nat) (s : Pool) :
    Pool × List Event :=
  let r := s.getWaitlist.foldl (assignStep now)
    ({ s with getWaitlist := [] }, ([], []))
  ({ r.1 with getWaitlist := r.2.1 }, r.2.2)

/-- One of the two loops of
`Pool::possiblySpawnMoreProcessesForExistingGroups` (Pool.h 342-374): walk the
group locations, spawn in each group satisfying `pred`, and return early
(second component true) as soon as the pool is at full capacity. -/
def spawnLoop (pred : Pool → Group → Bool) :
    Pool → List (String × String) → Pool × Bool
  | s, [] => (s, false)
  | s, loc :: rest =>
    match s.lookupGroup loc with
    | none => spawnLoop pred s rest
    | some g =>
      if pred s g then
        let s' := s.updateGroup loc.1 loc.2 Group.spawnTrigger
        if s'.atFullCapacityB then (s', true) else spawnLoop pred s' rest
      else
        spawnLoop pred s rest

/-- `Pool::possiblySpawnMoreProcessesForExistingGroups` (Pool.h 342-374):
first spawn for groups waiting for capacity, then (unless the first loop
returned early at full capacity) for groups whose `shouldSpawn` holds. -/
def Pool.possiblySpawnMoreProcessesForExistingGroups (s : Pool) : Pool :=
  let r1 := spawnLoop (fun _ g => g.isWaitingForCapacity) s s.groupLocs
  if r1.2 then r1.1
  else
    (spawnLoop (fun s' g => g.shouldSpawn s'.utilization s'.max) r1.1
      r1.1.groupLocs).1

/-- `Pool::detachProcessUnlocked` (Pool.h 403-426): if the process is alive,
detach it from its Group, reprocess the pool wait list and possibly spawn
more processes, returning true; otherwise return false and change nothing. -/
def Pool.detachProcessUnlocked (now : Nat) (s : Pool) (pr : PRef) :
    Bool × Pool × List Event :=
  if pr.proc.lifeStatus = PLifeStatus.ALIVE then
    let s1 := s.updateGroup pr.sgName pr.gName (Group.detach pr.proc.gupid)
    let r := s1.assignSessionsToGetWaiters now
    let s3 := r.1.possiblySpawnMoreProcessesForExistingGroups
    (true, s3, r.2)
  else
    (false, s, [])

/-- `Pool::detachProcess(const string &gupid)` (Pool.h 1244-1257): look the
process up by gupid; when found run `detachProcessUnlocked` (whose actions run
after the lock is released); when absent return false. -/
def Pool.detachProcessByGupid (now : Nat) (s : Pool) (gupid : String) :
    Bool × Pool :=
  match s.findProcessByGupid gupid with
  | some pr =>
    let r := s.detachProcessUnlocked now pr
    (r.1, r.2.1)
  | none => (false, s)

/-- `SuperGroup::destroy` as invoked by `Pool::forceDetachSuperGroup`.
Modelled from the spec: SuperGroup.h is absent from src; destruction detaches
the Groups' processes (spec §4.2 detach semantics) and completes
asynchronously, so it contributes no get-callback to the post-lock actions;
the SuperGroup's own `getWaitlist` is handled separately by the caller via
`assignExceptionToGetWaiters`. -/
def SuperGroup.destroy (sg : SuperGroup) : SuperGroup :=
  { sg with
      state := SGState.DESTROYING,
      groups := sg.groups.map fun g =>
        { g with
            enabledProcesses := [],
            disablingProcesses := [],
            disabledProcesses := [],
            detachedProcesses :=
              g.detachedProcesses ++
                g.listedProcs.map fun p =>
                  { p with lifeStatus := PLifeStatus.SHUTTING_DOWN } } }

/-- `Pool::assignExceptionToGetWaiters` (Pool.h 329-340): pop every waiter of
the given wait list and schedule its callback with a null session and the
exception as a post-lock action. -/
def assignExceptionToGetWaiters (wl : List GetWaiter) (e : ErrKind) :
    List Event :=
  wl.map fun w => Event.callback w.callbackId none (some e)

/-- `Pool::detachSuperGroupByName` (Pool.h 1165-1219): if the SuperGroup
exists, remove it from the map (`forceDetachSuperGroup`, which also destroys
it), schedule a `GetAborted` callback for every waiter on the SuperGroup's
wait list, possibly spawn more processes in the remaining groups, then release
the lock and run the scheduled actions.  The returned event trace starts with
the unlock, followed by the post-lock actions in order.  The destroyed
SuperGroup (`sg.destroy`) is no longer referenced by the pool and its shutdown
completes asynchronously, contributing no post-lock get-callbacks; the
`migrateSuperGroupGetWaitlistToPool` / `assignSessionsToGetWaiters` block of
the source is disabled by `#if 0` and is not modelled. -/
def Pool.detachSuperGroupByName (s : Pool) (name : String) :
    Bool × Pool × List Event :=
  match s.superGroups.find? (fun sg => sg.name == name) with
  | none => (false, s, [])
  | some sg =>
    let s1 := { s with
        superGroups := s.superGroups.filter fun sg2 => sg2.name != name }
    let acts :=
      assignExceptionToGetWaiters sg.destroy.getWaitlist ErrKind.getAborted
    let s2 := s1.possiblySpawnMoreProcessesForExistingGroups
    (true, s2, Event.unlock :: acts)

/-- `Pool::asyncGet` (Pool.h 894-1008).  Branch 1: the SuperGroup exists —
delegate to it and, if it returned a session, invoke the callback after the
lock is released.  Branch 2: not at full capacity — create the SuperGroup and
queue the callback on it.  Branch 3: at full capacity and no SuperGroup —
evict the oldest idle process, or (only if the options allow trashing
non-idle processes) the globally least-recently-used one, then create the
SuperGroup; if no process is eligible, push the request onto the pool-level
`getWaitlist`. -/
def Pool.asyncGet (now : Nat) (s : Pool) (o : Options) (cb : Nat) :
    Pool × List Event :=
  match s.findMatchingSuperGroup o with
  | some sg =>
    let (se, sg') := sg.get now ⟨o, cb⟩
    let s' := s.replaceSG sg.name fun _ => sg'
    (s',
     Event.unlock ::
       (match se with
        | some session => [Event.callback cb (some session) none]
        | none => []))
  | none =>
    if !s.atFullCapacityB then
      (s.createSuperGroupAndAsyncGetFromIt now o cb, [Event.unlock])
    else
      let victim :=
        match s.findOldestIdleProcess with
        | some v => some v
        | none =>
          if o.allowTrashingNonIdleProcesses then s.findBestProcessToTrash
          else none
      match victim with
      | none =>
        ({ s with getWaitlist := s.getWaitlist ++ [⟨o, cb⟩] }, [Event.unlock])
      | some v =>
        let s1 := s.updateGroup v.sgName v.gName (Group.detach v.proc.gupid)
        (s1.createSuperGroupAndAsyncGetFromIt now o cb, [Event.unlock])

/-- Invariant 2 of Pool.h (lines 175-178), as checked by
`Pool::verifyExpensiveInvariants`: every pool-level waiter targets an
app-group name that is not in the SuperGroup map. -/
def Pool.inv2 (s : Pool) : Bool :=
  s.getWaitlist.all fun w => (s.findMatchingSuperGroup w.options).isNone

/-- Invariant 1 of Pool.h (lines 179-185), as checked by
`Pool::verifyInvariants`: a non-empty pool-level wait list implies the pool is
at full capacity. -/
def Pool.inv1 (s : Pool) : Bool :=
  s.getWaitlist.isEmpty || s.atFullCapacityB

/-- The inner loop of `Pool::realGarbageCollect` (Pool.h 565-584) over one
group's `enabledProcesses`: walking the list in order, a process is detached
exactly when, at the moment it is examined, `sessions == 0`, `now >= lastUsed
+ maxIdleTime`, and the group's current `enabledCount` (here the `count`
argument, which drops by one at each detach) exceeds `minProcesses`.  Returns
the kept processes and the detached ones. -/
def gcDetachPass (now maxIdle minP : Nat) :
    Nat → List Process → List Process × List Process
  | _, [] => ([], [])
  | count, p :: rest =>
    if p.sessions = 0 ∧ p.lastUsed + maxIdle ≤ now ∧ minP < count then
      let r := gcDetachPass now maxIdle minP (count - 1) rest
      (r.1, p :: r.2)
    else
      let r := gcDetachPass now maxIdle minP count rest
      (p :: r.1, r.2)

/-- The effect of one `realGarbageCollect` pass on one Group: run
`gcDetachPass` (with the group's live `enabledCount` as the starting count)
and move the detached processes to `detachedProcesses` marked SHUTTING_DOWN
(`Group::detach` semantics).  The spawner-cleanup part of the pass touches no
process and is not modelled. -/
def Group.garbageCollect (now maxIdle : Nat) (g : Group) : Group :=
  let r := gcDetachPass now maxIdle g.options.minProcesses
    g.enabledProcesses.length g.enabledProcesses
  { g with
      enabledProcesses := r.1,
      detachedProcesses :=
        g.detachedProcesses ++
          r.2.map fun p => { p with lifeStatus := PLifeStatus.SHUTTING_DOWN } }

/-- `Pool::realGarbageCollect` (Pool.h 541-624): for every SuperGroup and
Group, garbage-collect the enabled processes against `maxIdleTime`. -/
def Pool.realGarbageCollect (now : Nat) (s : Pool) : Pool :=
  { s with
      superGroups := s.superGroups.map fun sg =>
        { sg with
            groups := sg.groups.map (Group.garbageCollect now s.maxIdleTime) } }

/-- A sequence of garbage-collection passes on one group, at the given
successive clock values (the pool's `maxIdleTime` fixed). -/
def Group.gcRuns (maxIdle : Nat) : List Nat → Group → Group
  | [], g => g
  | n :: ns, g => Group.gcRuns maxIdle ns (g.garbageCollect n maxIdle)

/-! ### Spawn negotiation (`Spawner.h`, src/unnamed/part_001) -/

/-- `SpawnException::ErrorKind` (Exceptions.h, as used by Spawner.h). -/
inductive SpawnErrorKind
  | PRELOADER_STARTUP_TIMEOUT
  | APP_STARTUP_TIMEOUT
  | APP_STARTUP_PROTOCOL_ERROR
  | APP_STARTUP_EXPLAINABLE_ERROR
  | INTERNAL_ERROR
deriving DecidableEq, Repr

/-- The data of a `SpawnException`: message, error page, HTML flag and kind
(matching the C++ constructor `SpawnException(msg, errorPage, isHTML,
errorKind)`). -/
structure SpawnException where
  msg : String
  errorPage : String
  isHTML : Bool
  errorKind : SpawnErrorKind
deriving DecidableEq, Repr

/-- The errno value EPIPE (Linux: 32), tested by `sendSpawnRequest`. -/
def EPIPE : Nat := 32

/-- The outcome of one run of the negotiation protocol: a successful spawn
carrying the advertised sockets (from which the `Process` object is
constructed), a `SpawnException`, or a propagated `SystemException` carrying
its errno. -/
inductive NegoResult
  | proc (sockets : List Socket)
  | spawnErr (e : SpawnException)
  | sysErr (code : Nat)
deriving DecidableEq, Repr

/-- The protocol-level I/O script of one negotiation, as seen through
`readMessageLine` (which already strips the `!> ` prefixes and filters out
diagnostic lines, Spawner.h): the handshake line, the outcome of the
`writeExact` calls of `sendSpawnRequest` (`none` for success, `some errno` for
a `SystemException`), the response type line, the protocol lines that follow
it (socket advertisements or error metadata; an exhausted list reads as EOF,
i.e. the empty string), the remainder returned by `io.readAll` on the error
path, the captured stderr output, and the oracle for the file-system checks of
`validateSocketAddress` on unix sockets (lstat + ownership). -/
structure NegotiationScript where
  handshakeLine : String
  writeOutcome : Option Nat
  responseLine : String
  furtherLines : List String
  bodyRemainder : String
  stderrOutput : String
  fsOk : Bool
deriving DecidableEq, Repr

/-- `Spawner::sendSpawnRequest` (Spawner.h 381-419): write the `You have
control 1.0` header and the flattened Options; a `SystemException` whose code
is EPIPE is swallowed (the child may have exited after writing an error
response, which the caller will want to read instead); any other code is
rethrown. -/
def sendSpawnRequest (writeOutcome : Option Nat) : Except Nat Unit :=
  match writeOutcome with
  | none => Except.ok ()
  | some e => if e = EPIPE then Except.ok () else Except.error e

/-- Index of the first occurrence of the two-character separator `": "` in a
character list (`line.find(": ")` of the C++ parsing loops). -/
def findColonSpace : List Char → Option Nat
  | [] => none
  | [_] => none
  | ':' :: ' ' :: _ => some 0
  | _ :: rest => (findColonSpace rest).map (· + 1)

/-- Splits a protocol line `"key: value\n"` at the first `": "`, dropping the
trailing newline from the value: `key = line.substr(0, pos)`, `value =
line.substr(pos + 2, line.size() - pos - 3)` (Spawner.h). -/
def parseKVLine (line : String) : Option (String × String) :=
  match findColonSpace line.data with
  | none => none
  | some i =>
    some ((line.data.take i).asString, ((line.data.drop (i + 2)).dropLast).asString)

/-- `atoi` on the concurrency field of a socket advertisement: the leading
decimal digits, 0 when there are none (leading white space and signs, which
`atoi` would also accept, do not occur in the protocol fields). -/
def atoiNat (s : String) : Nat :=
  ((s.data.takeWhile Char.isDigit).asString.toNat?).getD 0

/-- `getSocketAddressType` (Utils, absent from src).  Modelled from the spec
§6: `unix:/absolute/path` or `tcp://host:port`. -/
inductive SocketAddressType
  | SAT_UNIX
  | SAT_TCP
  | SAT_UNKNOWN
deriving DecidableEq, Repr

/-- Modelled from the spec §6: classify a socket address string by its
scheme. -/
def getSocketAddressType (a : String) : SocketAddressType :=
  if a.startsWith "unix:" then SocketAddressType.SAT_UNIX
  else if a.startsWith "tcp://" then SocketAddressType.SAT_TCP
  else SocketAddressType.SAT_UNKNOWN

/-- `Spawner::validateSocketAddress` (Spawner.h): unix sockets must pass the
absolute-path, lstat and ownership checks (bundled into the file-system oracle
`fsOk`); TCP sockets are accepted (the loopback check is a TODO in the
source); anything else is an unsupported address type.  Returns true when the
address is accepted (the C++ returns an empty error string). -/
def validateSocketAddress (fsOk : Bool) (address : String) : Bool :=
  match getSocketAddressType address with
  | SocketAddressType.SAT_UNIX => fsOk
  | SocketAddressType.SAT_TCP => true
  | SocketAddressType.SAT_UNKNOWN => false

/-- Whether a socket list contains a session socket
(`SocketList::hasSessionSockets`, Socket.h absent from src; modelled from the
protocols `Process::indexSessionSockets` treats as session sockets). -/
def hasSessionSockets (l : List Socket) : Bool :=
  l.any fun so => so.protocol == "session" || so.protocol == "http_session"

/-- A protocol-error `SpawnException`: `throwAppSpawnException` attaches the
captured stderr output as the error page and the HTML flag false. -/
def protoErr (msg stderr : String) : SpawnException :=
  ⟨msg, stderr, false, SpawnErrorKind.APP_STARTUP_PROTOCOL_ERROR⟩

/-- The loop of `Spawner::handleSpawnResponse` (Spawner.h 421-516): read
`socket: name;address;protocol;concurrency` lines until the blank line,
validating each address; empty read (EOF), a line without trailing newline, a
line without `": "`, a non-`socket` key, a wrongly formatted value or an
invalid address are protocol errors. -/
def handleSpawnResponseLoop (fsOk : Bool) (stderr : String) :
    List String → Except SpawnException (List Socket)
  | [] =>
    Except.error (protoErr "It unexpected closed the connection while sending its startup response." stderr)
  | l :: rest =>
    if l = "" then
      Except.error (protoErr "It unexpected closed the connection while sending its startup response." stderr)
    else if l.back ≠ '\n' then
      Except.error (protoErr "It sent a line without a newline character in its startup response." stderr)
    else if l = "\n" then
      Except.ok []
    else
      match parseKVLine l with
      | none =>
        Except.error (protoErr "It sent a startup response line without separator." stderr)
      | some (k, v) =>
        if k = "socket" then
          match v.splitOn ";" with
          | [a0, a1, a2, a3] =>
            if validateSocketAddress fsOk a1 then
              (handleSpawnResponseLoop fsOk stderr rest).map
                (fun ss => ⟨a0, a1, a2, atoiNat a3, 0⟩ :: ss)
            else
              Except.error (protoErr "It advertised an invalid socket address." stderr)
          | _ =>
            Except.error (protoErr "It reported a wrongly formatted socket response value." stderr)
        else
          Except.error (protoErr "It sent an unknown startup response line." stderr)

/-- `Spawner::handleSpawnResponse` (Spawner.h 421-516): parse the socket
advertisements; if none of them is a session socket it is a protocol error;
otherwise the `Process` object is constructed from them. -/
def handleSpawnResponse (sc : NegotiationScript) : NegoResult :=
  match handleSpawnResponseLoop sc.fsOk sc.stderrOutput sc.furtherLines with
  | Except.error e => NegoResult.spawnErr e
  | Except.ok sockets =>
    if hasSessionSockets sockets then NegoResult.proc sockets
    else
      NegoResult.spawnErr
        (protoErr "It did not advertise any session sockets." sc.stderrOutput)

/-- Inserts `attributes[key] = value` into the metadata map (`std::map`
assignment: replaces an existing binding, appends otherwise). -/
def insertAttr (m : List (String × String)) (k v : String) :
    List (String × String) :=
  if m.any (fun e => e.1 == k) then
    m.map fun e => if e.1 == k then (k, v) else e
  else
    m ++ [(k, v)]

/-- Looks a key up in the metadata map; a missing key reads as the empty
string (`std::map::operator[]` default-constructs the value in
`attributes["html"] == "true"`). -/
def attrGet (m : List (String × String)) (k : String) : String :=
  ((m.find? fun e => e.1 == k).map (fun e => e.2)).getD ""

/-- The metadata loop of `Spawner::handleSpawnErrorResponse` (Spawner.h
1153-1211): read `key: value` lines into the attribute map until the blank
line; an empty read (EOF), a missing trailing newline or a missing `": "`
separator is a protocol error (`none`). -/
def parseErrorAttrsLoop (acc : List (String × String)) :
    List String → Option (List (String × String))
  | [] => none
  | l :: rest =>
    if l = "" then none
    else if l.back ≠ '\n' then none
    else if l = "\n" then some acc
    else
      match parseKVLine l with
      | none => none
      | some (k, v) => parseErrorAttrsLoop (insertAttr acc k v) rest

/-- `Spawner::handleSpawnErrorResponse` (Spawner.h 1153-1211): parse the
metadata lines, read the body until EOF, and raise a `SpawnException` of kind
`APP_STARTUP_EXPLAINABLE_ERROR` whose error page is the body and whose HTML
flag is set exactly when `attributes["html"] == "true"`.  A malformed metadata
section raises an `APP_STARTUP_PROTOCOL_ERROR` instead (via
`throwAppSpawnException`). -/
def handleSpawnErrorResponse (sc : NegotiationScript) : SpawnException :=
  match parseErrorAttrsLoop [] sc.furtherLines with
  | none =>
    protoErr "It sent a malformed startup error response." sc.stderrOutput
  | some attrs =>
    ⟨"An error occured while starting the web application.",
     sc.bodyRemainder,
     attrGet attrs "html" == "true",
     SpawnErrorKind.APP_STARTUP_EXPLAINABLE_ERROR⟩

/-- `Spawner::negotiateSpawn` (Spawner.h 1094-1151): on the `I have control
1.0` handshake, send the spawn request (a non-EPIPE `SystemException` from the
write propagates to the caller) and dispatch on the response type: `Ready` →
`handleSpawnResponse`, `Error` → `handleSpawnErrorResponse`, anything else →
`handleInvalidSpawnResponseType`; without the handshake, an immediate `Error`
line is also dispatched to `handleSpawnErrorResponse`.  Read errors and
timeouts are outside the script and not modelled. -/
def negotiateSpawn (sc : NegotiationScript) : NegoResult :=
  if sc.handshakeLine = "I have control 1.0\n" then
    match sendSpawnRequest sc.writeOutcome with
    | Except.error e => NegoResult.sysErr e
    | Except.ok _ =>
      if sc.responseLine = "Ready\n" then
        handleSpawnResponse sc
      else if sc.responseLine = "Error\n" then
        NegoResult.spawnErr (handleSpawnErrorResponse sc)
      else
        NegoResult.spawnErr
          (protoErr "It sent an unknown response type." sc.stderrOutput)
  else if sc.handshakeLine = "Error\n" then
    NegoResult.spawnErr (handleSpawnErrorResponse sc)
  else
    NegoResult.spawnErr
      (protoErr "It sent an unknown response type." sc.stderrOutput)

/-! ### Helper lemmas about `popMinBy` -/

theorem popMinBy_ne_none {α : Type} (f : α → Nat) (x : α) (xs : List α) :
    popMinBy f (x :: xs) ≠ none := by
  simp only [popMinBy]
  split
  · simp
  · cases h : popMinBy f xs with
    | none => simp
    | some p => cases p; simp

theorem popMinBy_mem {α : Type} (f : α → Nat) :
    ∀ (l : List α) (m : α) (rest : List α),
      popMinBy f l = some (m, rest) → m ∈ l ∧ ∀ y ∈ rest, y ∈ l := by
  intro l
  induction l with
  | nil => intro m rest h; simp [popMinBy] at h
  | cons x xs ih =>
    intro m rest h
    simp only [popMinBy] at h
    split at h
    · cases h
      exact ⟨List.mem_cons_self x xs, fun y hy => List.mem_cons_of_mem x hy⟩
    · rcases hrec : popMinBy f xs with - | ⟨m2, rest2⟩
      · rw [hrec] at h
        cases h
        exact ⟨List.mem_cons_self x xs, fun y hy => List.mem_cons_of_mem x hy⟩
      · rw [hrec] at h
        cases h
        obtain ⟨hm, hr⟩ := ih m rest2 hrec
        refine ⟨List.mem_cons_of_mem x hm, ?_⟩
        intro y hy
        rcases List.mem_cons.mp hy with rfl | hy2
        · exact List.mem_cons_self y xs
        · exact List.mem_cons_of_mem x (hr y hy2)

theorem popMinBy_min {α : Type} (f : α → Nat) :
    ∀ (l : List α) (m : α) (rest : List α),
      popMinBy f l = some (m, rest) → ∀ y ∈ l, f m ≤ f y := by
  intro l
  induction l with
  | nil => intro m rest h; simp [popMinBy] at h
  | cons x xs ih =>
    intro m rest h y hy
    simp only [popMinBy] at h
    split at h
    · rename_i hall
      cases h
      rcases List.mem_cons.mp hy with rfl | hy2
      · exact Nat.le_refl _
      · have := List.all_eq_true.mp hall y hy2
        exact of_decide_eq_true this
    · rename_i hnall
      have hex : ∃ z ∈ xs, f z < f x := by
        by_contra hno
        push_neg at hno
        apply hnall
        exact List.all_eq_true.mpr fun z hz => decide_eq_true (hno z hz)
      obtain ⟨z, hz, hzlt⟩ := hex
      rcases hrec : popMinBy f xs with - | ⟨m2, rest2⟩
      · exfalso
        cases xs with
        | nil => exact List.not_mem_nil z hz
        | cons a as => exact popMinBy_ne_none f a as hrec
      · rw [hrec] at h
        cases h
        have hmin := ih m rest2 hrec
        rcases List.mem_cons.mp hy with rfl | hy2
        · exact Nat.le_of_lt (Nat.lt_of_le_of_lt (hmin z hz) hzlt)
        · exact hmin y hy2

/-! ### Helper lemmas about the eviction scans -/

theorem foi_fold_some (l : List PRef) :
    ∀ (b : PRef), ∃ r, l.foldl foiStep (some b) = some r ∧
      r.proc.lastUsed ≤ b.proc.lastUsed ∧
      (r = b ∨ (r ∈ l ∧ r.proc.utilization = 0)) := by
  induction l with
  | nil => intro b; exact ⟨b, rfl, Nat.le_refl _, Or.inl rfl⟩
  | cons c rest ih =>
    intro b
    simp only [List.foldl_cons]
    by_cases hc : c.proc.utilization = 0 ∧ c.proc.lastUsed < b.proc.lastUsed
    · have hstep : foiStep (some b) c = some c := by
        simp [foiStep, hc]
      rw [hstep]
      obtain ⟨r, hr, hle, hmem⟩ := ih c
      refine ⟨r, hr, Nat.le_trans hle (Nat.le_of_lt hc.2), ?_⟩
      rcases hmem with rfl | ⟨h1, h2⟩
      · exact Or.inr ⟨List.mem_cons_self _ _, hc.1⟩
      · exact Or.inr ⟨List.mem_cons_of_mem c h1, h2⟩
    · have hstep : foiStep (some b) c = some b := by
        simp only [foiStep]
        rw [if_neg hc]
      rw [hstep]
      obtain ⟨r, hr, hle, hmem⟩ := ih b
      refine ⟨r, hr, hle, ?_⟩
      rcases hmem with rfl | ⟨h1, h2⟩
      · exact Or.inl rfl
      · exact Or.inr ⟨List.mem_cons_of_mem c h1, h2⟩

theorem foi_fold_none_iff (l : List PRef) :
    ∀ (acc : Option PRef), l.foldl foiStep acc = none ↔
      acc = none ∧ ∀ c ∈ l, c.proc.utilization ≠ 0 := by
  induction l with
  | nil => intro acc; simp
  | cons c rest ih =>
    intro acc
    simp only [List.foldl_cons]
    constructor
    · intro h
      rcases acc with - | b
      · by_cases hc : c.proc.utilization = 0
        · exfalso
          have hstep : foiStep none c = some c := by simp [foiStep, hc]
          rw [hstep] at h
          obtain ⟨r, hr, -, -⟩ := foi_fold_some rest c
          rw [hr] at h
          cases h
        · have hstep : foiStep none c = none := by simp [foiStep, hc]
          rw [hstep] at h
          have := (ih none).mp h
          refine ⟨rfl, ?_⟩
          intro x hx
          rcases List.mem_cons.mp hx with rfl | hx2
          · exact hc
          · exact this.2 x hx2
      · exfalso
        have hs : ∃ b2, foiStep (some b) c = some b2 := by
          simp only [foiStep]
          split <;> exact ⟨_, rfl⟩
        obtain ⟨b2, hb2⟩ := hs
        rw [hb2] at h
        obtain ⟨r, hr, -, -⟩ := foi_fold_some rest b2
        rw [hr] at h
        cases h
    · rintro ⟨rfl, hall⟩
      have hc := hall c (List.mem_cons_self c rest)
      have hstep : foiStep none c = none := by simp [foiStep, hc]
      rw [hstep]
      exact (ih none).mpr ⟨rfl, fun x hx => hall x (List.mem_cons_of_mem c hx)⟩

theorem foi_fold_mem (l : List PRef) :
    ∀ (acc : Option PRef) (r : PRef), l.foldl foiStep acc = some r →
      acc = some r ∨ (r ∈ l ∧ r.proc.utilization = 0) := by
  induction l with
  | nil => intro acc r h; exact Or.inl h
  | cons c rest ih =>
    intro acc r h
    simp only [List.foldl_cons] at h
    have hcases : foiStep acc c = acc ∨
        (foiStep acc c = some c ∧ c.proc.utilization = 0) := by
      rcases acc with - | b
      · by_cases hc : c.proc.utilization = 0
        · exact Or.inr ⟨by simp [foiStep, hc], hc⟩
        · exact Or.inl (by simp [foiStep, hc])
      · by_cases hc : c.proc.utilization = 0 ∧ c.proc.lastUsed < b.proc.lastUsed
        · exact Or.inr ⟨by simp only [foiStep]; rw [if_pos hc], hc.1⟩
        · exact Or.inl (by simp only [foiStep]; rw [if_neg hc])
    rcases hcases with heq | ⟨heq, hc⟩
    · rw [heq] at h
      rcases ih acc r h with h1 | ⟨h1, h2⟩
      · exact Or.inl h1
      · exact Or.inr ⟨List.mem_cons_of_mem c h1, h2⟩
    · rw [heq] at h
      rcases ih (some c) r h with h1 | ⟨h1, h2⟩
      · injection h1 with h1e
        subst h1e
        exact Or.inr ⟨List.mem_cons_self _ _, hc⟩
      · exact Or.inr ⟨List.mem_cons_of_mem c h1, h2⟩

theorem foi_fold_min (l : List PRef) :
    ∀ (acc : Option PRef) (r : PRef), l.foldl foiStep acc = some r →
      ∀ c ∈ l, c.proc.utilization = 0 → r.proc.lastUsed ≤ c.proc.lastUsed := by
  induction l with
  | nil => intro acc r h c hc; simp at hc
  | cons x rest ih =>
    intro acc r h c hc hidle
    simp only [List.foldl_cons] at h
    rcases List.mem_cons.mp hc with rfl | hc2
    · have hb : ∃ b, foiStep acc c = some b ∧ b.proc.lastUsed ≤ c.proc.lastUsed := by
        rcases acc with - | b
        · exact ⟨c, by simp [foiStep, hidle], Nat.le_refl _⟩
        · by_cases hlt : c.proc.lastUsed < b.proc.lastUsed
          · exact ⟨c, by simp [foiStep, hidle, hlt], Nat.le_refl _⟩
          · refine ⟨b, ?_, Nat.le_of_not_lt hlt⟩
            simp only [foiStep]
            rw [if_neg]
            intro h2
            exact hlt h2.2
      obtain ⟨b, hb1, hb2⟩ := hb
      rw [hb1] at h
      obtain ⟨r2, hr2, hle, -⟩ := foi_fold_some rest b
      rw [hr2] at h
      cases h
      exact Nat.le_trans hle hb2
    · exact ih (foiStep acc x) r h c hc2 hidle

theorem fbt_fold_none_iff (l : List PRef) :
    ∀ (acc : Option PRef), l.foldl fbtStep acc = none ↔ acc = none ∧ l = [] := by
  induction l with
  | nil => intro acc; simp
  | cons c rest ih =>
    intro acc
    simp only [List.foldl_cons]
    constructor
    · intro h
      exfalso
      have hs : ∃ b, fbtStep acc c = some b := by
        rcases acc with - | b
        · exact ⟨c, rfl⟩
        · simp only [fbtStep]
          split
          · exact ⟨_, rfl⟩
          · exact ⟨_, rfl⟩
      obtain ⟨b, hb⟩ := hs
      rw [hb] at h
      have := (ih (some b)).mp h
      cases this.1
    · rintro ⟨-, h⟩
      cases h

/-- On every process whose `concurrency` fits in an `int` (as it does in the
C++), `utilization() == 0` is equivalent to `sessions == 0`. -/
theorem utilization_eq_zero_iff (p : Process) (h : p.concurrency ≤ intMax) :
    p.utilization = 0 ↔ p.sessions = 0 := by
  unfold Process.utilization
  by_cases hc : p.concurrency = 0
  · rw [if_pos hc]
    by_cases hs : p.sessions = 0
    · simp [hs]
    · simp [hs]
  · rw [if_neg hc]
    constructor
    · intro hz
      by_contra hs
      have hs1 : 1 ≤ p.sessions := Nat.one_le_iff_ne_zero.mpr hs
      have hge : p.concurrency ≤ p.sessions * intMax := by
        calc p.concurrency ≤ intMax := h
        _ = 1 * intMax := (Nat.one_mul _).symm
        _ ≤ p.sessions * intMax := Nat.mul_le_mul_right _ hs1
      have := (Nat.one_le_div_iff (Nat.pos_of_ne_zero hc)).mpr hge
      omega
    · intro hs
      rw [hs, Nat.zero_mul, Nat.zero_div]

/-! ### Helper lemmas about the garbage collector -/

theorem gcDetachPass_nil (now maxIdle minP count : Nat) :
    gcDetachPass now maxIdle minP count [] = ([], []) := rfl

theorem gcDetachPass_cons_pos (now maxIdle minP count : Nat) (q : Process)
    (rest : List Process)
    (h : q.sessions = 0 ∧ q.lastUsed + maxIdle ≤ now ∧ minP < count) :
    gcDetachPass now maxIdle minP count (q :: rest) =
      ((gcDetachPass now maxIdle minP (count - 1) rest).1,
       q :: (gcDetachPass now maxIdle minP (count - 1) rest).2) := by
  simp only [gcDetachPass]
  rw [if_pos h]

theorem gcDetachPass_cons_neg (now maxIdle minP count : Nat) (q : Process)
    (rest : List Process)
    (h : ¬(q.sessions = 0 ∧ q.lastUsed + maxIdle ≤ now ∧ minP < count)) :
    gcDetachPass now maxIdle minP count (q :: rest) =
      (q :: (gcDetachPass now maxIdle minP count rest).1,
       (gcDetachPass now maxIdle minP count rest).2) := by
  simp only [gcDetachPass]
  rw [if_neg h]

theorem gcDetachPass_detached_cond (now maxIdle minP : Nat) :
    ∀ (l : List Process) (count : Nat),
      ∀ p ∈ (gcDetachPass now maxIdle minP count l).2,
        p.sessions = 0 ∧ p.lastUsed + maxIdle ≤ now := by
  intro l
  induction l with
  | nil => intro count p hp; simp [gcDetachPass_nil] at hp
  | cons q rest ih =>
    intro count p hp
    by_cases hc : q.sessions = 0 ∧ q.lastUsed + maxIdle ≤ now ∧ minP < count
    · rw [gcDetachPass_cons_pos now maxIdle minP count q rest hc] at hp
      rcases List.mem_cons.mp hp with rfl | hp2
      · exact ⟨hc.1, hc.2.1⟩
      · exact ih (count - 1) p hp2
    · rw [gcDetachPass_cons_neg now maxIdle minP count q rest hc] at hp
      exact ih count p hp

theorem gcDetachPass_no_detach (now maxIdle minP : Nat) :
    ∀ (l : List Process) (count : Nat), count ≤ minP →
      (gcDetachPass now maxIdle minP count l).2 = [] := by
  intro l
  induction l with
  | nil => intro count h; rfl
  | cons q rest ih =>
    intro count h
    have hc : ¬(q.sessions = 0 ∧ q.lastUsed + maxIdle ≤ now ∧ minP < count) := by
      intro h2
      omega
    rw [gcDetachPass_cons_neg now maxIdle minP count q rest hc]
    exact ih count h

theorem gcDetachPass_lengths (now maxIdle minP : Nat) :
    ∀ (l : List Process) (count : Nat),
      (gcDetachPass now maxIdle minP count l).1.length +
        (gcDetachPass now maxIdle minP count l).2.length = l.length := by
  intro l
  induction l with
  | nil => intro count; rfl
  | cons q rest ih =>
    intro count
    by_cases hc : q.sessions = 0 ∧ q.lastUsed + maxIdle ≤ now ∧ minP < count
    · rw [gcDetachPass_cons_pos now maxIdle minP count q rest hc]
      have := ih (count - 1)
      simp only [List.length_cons]
      omega
    · rw [gcDetachPass_cons_neg now maxIdle minP count q rest hc]
      have := ih count
      simp only [List.length_cons]
      omega

theorem gcDetachPass_detached_le (now maxIdle minP : Nat) :
    ∀ (l : List Process) (count : Nat),
      (gcDetachPass now maxIdle minP count l).2.length ≤ count - minP := by
  intro l
  induction l with
  | nil => intro count; simp [gcDetachPass_nil]
  | cons q rest ih =>
    intro count
    by_cases hc : q.sessions = 0 ∧ q.lastUsed + maxIdle ≤ now ∧ minP < count
    · rw [gcDetachPass_cons_pos now maxIdle minP count q rest hc]
      have := ih (count - 1)
      simp only [List.length_cons]
      omega
    · rw [gcDetachPass_cons_neg now maxIdle minP count q rest hc]
      dsimp only
      have := ih count
      omega

theorem gcDetachPass_kept_cap (now maxIdle minP : Nat) :
    ∀ (l : List Process) (count : Nat),
      (∃ p ∈ (gcDetachPass now maxIdle minP count l).1,
        p.sessions = 0 ∧ p.lastUsed + maxIdle ≤ now) →
      count - (gcDetachPass now maxIdle minP count l).2.length ≤ minP := by
  intro l
  induction l with
  | nil =>
    intro count h
    obtain ⟨p, hp, -⟩ := h
    simp [gcDetachPass_nil] at hp
  | cons q rest ih =>
    intro count h
    by_cases hc : q.sessions = 0 ∧ q.lastUsed + maxIdle ≤ now ∧ minP < count
    · rw [gcDetachPass_cons_pos now maxIdle minP count q rest hc] at h ⊢
      dsimp only at h ⊢
      have := ih (count - 1) h
      simp only [List.length_cons]
      omega
    · rw [gcDetachPass_cons_neg now maxIdle minP count q rest hc] at h ⊢
      dsimp only at h ⊢
      obtain ⟨p, hp, hcond⟩ := h
      rcases List.mem_cons.mp hp with rfl | hp2
      · have hcount : count ≤ minP := by
          by_contra h2
          exact hc ⟨hcond.1, hcond.2, Nat.lt_of_not_le h2⟩
        omega
      · exact ih count ⟨p, hp2, hcond⟩

/-- The options of a group are untouched by a garbage-collection pass. -/
theorem garbageCollect_options (now maxIdle : Nat) (g : Group) :
    (g.garbageCollect now maxIdle).options = g.options := rfl

/-- Single-pass floor: a garbage-collection pass never brings a group's
enabled count below `min enabledCount minProcesses`. -/
theorem garbageCollect_floor (now maxIdle : Nat) (g : Group) :
    min g.enabledProcesses.length g.options.minProcesses ≤
      (g.garbageCollect now maxIdle).enabledProcesses.length := by
  have hlen := gcDetachPass_lengths now maxIdle g.options.minProcesses
    g.enabledProcesses g.enabledProcesses.length
  have hle := gcDetachPass_detached_le now maxIdle g.options.minProcesses
    g.enabledProcesses g.enabledProcesses.length
  show min g.enabledProcesses.length g.options.minProcesses ≤
    (gcDetachPass now maxIdle g.options.minProcesses
      g.enabledProcesses.length g.enabledProcesses).1.length
  omega

/-- Multi-pass floor: no sequence of garbage-collection passes brings a
group's enabled count below `min enabledCount minProcesses`. -/
theorem gcRuns_floor (maxIdle : Nat) :
    ∀ (nows : List Nat) (g : Group),
      min g.enabledProcesses.length g.options.minProcesses ≤
        (Group.gcRuns maxIdle nows g).enabledProcesses.length := by
  intro nows
  induction nows with
  | nil => intro g; simp [Group.gcRuns]
  | cons n ns ih =>
    intro g
    have h1 := garbageCollect_floor n maxIdle g
    have h2 := ih (g.garbageCollect n maxIdle)
    rw [garbageCollect_options] at h2
    show min g.enabledProcesses.length g.options.minProcesses ≤
      (Group.gcRuns maxIdle ns (g.garbageCollect n maxIdle)).enabledProcesses.length
    omega

/-! ### Helper lemmas about gupid tracking (for detach idempotence) -/

/-- No listed process of the group has the given gupid. -/
def Group.gupidFree (x : String) (g : Group) : Prop :=
  ∀ p ∈ g.listedProcs, p.gupid ≠ x

/-- No listed process of the pool has the given gupid. -/
def Pool.gupidFree (x : String) (s : Pool) : Prop :=
  ∀ sg ∈ s.superGroups, ∀ g ∈ sg.groups, Group.gupidFree x g

theorem findProcessByGupid_eq_none_iff (s : Pool) (x : String) :
    s.findProcessByGupid x = none ↔ s.gupidFree x := by
  unfold Pool.findProcessByGupid Pool.gupidFree
  rw [List.find?_eq_none]
  constructor
  · intro h sg hsg g hg p hp hx
    have hmem : (⟨sg.name, g.name, p⟩ : PRef) ∈ s.getProcesses := by
      unfold Pool.getProcesses
      simp only [List.mem_flatMap, List.mem_map]
      exact ⟨sg, hsg, g, hg, p, hp, rfl⟩
    have := h _ hmem
    simp only [beq_iff_eq] at this
    exact this hx
  · intro h pr hpr
    unfold Pool.getProcesses at hpr
    simp only [List.mem_flatMap, List.mem_map] at hpr
    obtain ⟨sg, hsg, g, hg, p, hp, rfl⟩ := hpr
    simp only [beq_iff_eq]
    exact h sg hsg g hg p hp

theorem groupGet_gupidFree (x : String) (now : Nat) (g : Group)
    (w : GetWaiter) (h : g.gupidFree x) : ((g.get now w).2).gupidFree x := by
  unfold Group.get
  split
  · exact fun p hp => h p hp
  · rcases hpop : popMinBy Process.utilization g.enabledProcesses
      with - | ⟨p, rest⟩
    · dsimp only
      exact fun q hq => h q hq
    · dsimp only
      obtain ⟨hpmem, hrest⟩ := popMinBy_mem Process.utilization
        g.enabledProcesses p rest hpop
      split
      · exact fun q hq => h q hq
      · intro q hq
        dsimp only [Group.listedProcs] at hq
        rcases List.mem_append.mp hq with hq1 | hq2
        · rcases List.mem_append.mp hq1 with hq3 | hq4
          · rcases List.mem_cons.mp hq3 with rfl | hq5
            · exact h p (List.mem_append_left _ (List.mem_append_left _ hpmem))
            · exact h q (List.mem_append_left _
                (List.mem_append_left _ (hrest q hq5)))
          · exact h q (List.mem_append_left _ (List.mem_append_right _ hq4))
        · exact h q (List.mem_append_right _ hq2)

theorem superGroupGet_gupidFree (x : String) (now : Nat) (sg : SuperGroup)
    (w : GetWaiter) (h : ∀ g ∈ sg.groups, Group.gupidFree x g) :
    ∀ g ∈ ((sg.get now w).2).groups, Group.gupidFree x g := by
  unfold SuperGroup.get
  split
  · rcases hgs : sg.groups with - | ⟨g0, rest⟩
    · intro g hg
      simp only [hgs] at hg ⊢
      exact h g (by rw [hgs]; exact hg)
    · intro g hg
      simp only [hgs] at hg
      rcases List.mem_cons.mp hg with rfl | hg2
      · exact groupGet_gupidFree x now g0 w (h g0 (by rw [hgs]; exact List.mem_cons_self _ _))
      · exact h g (by rw [hgs]; exact List.mem_cons_of_mem _ hg2)
  · exact h

theorem Pool.replaceSG_gupidFree (x : String) (s : Pool) (n : String)
    (f : SuperGroup → SuperGroup) (hs : s.gupidFree x)
    (hf : ∀ sg ∈ s.superGroups, (∀ g ∈ sg.groups, Group.gupidFree x g) →
      ∀ g ∈ (f sg).groups, Group.gupidFree x g) :
    (s.replaceSG n f).gupidFree x := by
  intro sg' hsg' g hg
  unfold Pool.replaceSG at hsg'
  simp only [List.mem_map] at hsg'
  obtain ⟨sg, hsg, rfl⟩ := hsg'
  by_cases hn : sg.name = n
  · rw [if_pos hn] at hg
    exact hf sg hsg (hs sg hsg) g hg
  · rw [if_neg hn] at hg
    exact hs sg hsg g hg

theorem Pool.createSuperGroup_gupidFree (x : String) (s : Pool) (o : Options)
    (hs : s.gupidFree x) : (s.createSuperGroup o).gupidFree x := by
  intro sg hsg g hg
  unfold Pool.createSuperGroup at hsg
  rcases List.mem_append.mp hsg with h1 | h2
  · exact hs sg h1 g hg
  · rcases List.mem_cons.mp h2 with rfl | h3
    · simp at hg
    · simp at h3

theorem Pool.createSuperGroupAndAsyncGetFromIt_gupidFree (x : String)
    (now : Nat) (s : Pool) (o : Options) (cb : Nat) (hs : s.gupidFree x) :
    (s.createSuperGroupAndAsyncGetFromIt now o cb).gupidFree x := by
  unfold Pool.createSuperGroupAndAsyncGetFromIt
  exact Pool.replaceSG_gupidFree x _ _ _
    (Pool.createSuperGroup_gupidFree x s o hs)
    (fun sg _ hsg => superGroupGet_gupidFree x now sg _ hsg)

theorem assignStep_gupidFree (x : String) (now : Nat)
    (acc : Pool × List GetWaiter × List Event) (w : GetWaiter)
    (h : acc.1.gupidFree x) : ((assignStep now acc w).1).gupidFree x := by
  unfold assignStep
  split
  · rename_i sg hfind
    have hsg : sg ∈ acc.1.superGroups := by
      unfold Pool.findMatchingSuperGroup at hfind
      exact List.mem_of_find?_eq_some hfind
    split
    · dsimp only
      exact Pool.replaceSG_gupidFree x acc.1 sg.name _ h
        (fun sg2 _ _ => superGroupGet_gupidFree x now sg w (h sg hsg))
    · dsimp only
      exact Pool.replaceSG_gupidFree x acc.1 sg.name _ h
        (fun sg2 _ _ => superGroupGet_gupidFree x now sg w (h sg hsg))
  · split
    · dsimp only
      exact Pool.createSuperGroupAndAsyncGetFromIt_gupidFree x now acc.1
        w.options w.callbackId h
    · dsimp only
      exact h

theorem assign_fold_gupidFree (x : String) (now : Nat) :
    ∀ (ws : List GetWaiter) (acc : Pool × List GetWaiter × List Event),
      acc.1.gupidFree x → ((ws.foldl (assignStep now) acc).1).gupidFree x := by
  intro ws
  induction ws with
  | nil => intro acc h; exact h
  | cons w rest ih =>
    intro acc h
    simp only [List.foldl_cons]
    exact ih (assignStep now acc w) (assignStep_gupidFree x now acc w h)

theorem assignSessionsToGetWaiters_gupidFree (x : String) (now : Nat)
    (s : Pool) (h : s.gupidFree x) :
    ((s.assignSessionsToGetWaiters now).1).gupidFree x := by
  unfold Pool.assignSessionsToGetWaiters
  have hstart : ({ s with getWaitlist := [] } : Pool).gupidFree x := h
  exact assign_fold_gupidFree x now s.getWaitlist _ hstart

theorem Pool.updateGroup_gupidFree (x : String) (s : Pool) (a b : String)
    (f : Group → Group) (hs : s.gupidFree x)
    (hf : ∀ g, Group.gupidFree x g → Group.gupidFree x (f g)) :
    (s.updateGroup a b f).gupidFree x := by
  intro sg' hsg' g' hg'
  unfold Pool.updateGroup at hsg'
  simp only [List.mem_map] at hsg'
  obtain ⟨sg, hsg, rfl⟩ := hsg'
  by_cases hn : sg.name = a
  · rw [if_pos hn] at hg'
    simp only [List.mem_map] at hg'
    obtain ⟨g, hg, rfl⟩ := hg'
    by_cases hgn : g.name = b
    · rw [if_pos hgn]
      exact hf g (hs sg hsg g hg)
    · rw [if_neg hgn]
      exact hs sg hsg g hg
  · rw [if_neg hn] at hg'
    exact hs sg hsg g' hg'

theorem Group.spawnTrigger_listedProcs (g : Group) :
    (g.spawnTrigger).listedProcs = g.listedProcs := by
  unfold Group.spawnTrigger
  split
  · rfl
  · rfl

theorem spawnLoop_gupidFree (x : String) (pred : Pool → Group → Bool) :
    ∀ (locs : List (String × String)) (s : Pool), s.gupidFree x →
      ((spawnLoop pred s locs).1).gupidFree x := by
  intro locs
  induction locs with
  | nil => intro s h; exact h
  | cons loc rest ih =>
    intro s h
    unfold spawnLoop
    rcases hlg : s.lookupGroup loc with - | g
    · exact ih s h
    · dsimp only
      have hupd : (s.updateGroup loc.1 loc.2 Group.spawnTrigger).gupidFree x :=
        Pool.updateGroup_gupidFree x s loc.1 loc.2 Group.spawnTrigger h
          (fun g2 hg2 => by
            intro p hp
            rw [Group.spawnTrigger_listedProcs] at hp
            exact hg2 p hp)
      split
      · split
        · exact hupd
        · exact ih _ hupd
      · exact ih s h

theorem possiblySpawn_gupidFree (x : String) (s : Pool) (h : s.gupidFree x) :
    (s.possiblySpawnMoreProcessesForExistingGroups).gupidFree x := by
  have h1 := spawnLoop_gupidFree x (fun _ g => g.isWaitingForCapacity)
    s.groupLocs s h
  show Pool.gupidFree x
    (if (spawnLoop (fun _ g => g.isWaitingForCapacity) s s.groupLocs).2 = true
     then (spawnLoop (fun _ g => g.isWaitingForCapacity) s s.groupLocs).1
     else (spawnLoop (fun s' g => Group.shouldSpawn s'.utilization s'.max g)
       (spawnLoop (fun _ g => g.isWaitingForCapacity) s s.groupLocs).1
       ((spawnLoop (fun _ g => g.isWaitingForCapacity) s s.groupLocs).1).groupLocs).1)
  split
  · exact h1
  · exact spawnLoop_gupidFree x _ _ _ h1

theorem Group.detach_gupidFree (u : String) (g : Group) :
    Group.gupidFree u (Group.detach u g) := by
  intro p hp
  unfold Group.detach at hp
  dsimp only [Group.listedProcs] at hp
  rcases List.mem_append.mp hp with hp1 | hp2
  · rcases List.mem_append.mp hp1 with hp3 | hp4
    · have := (List.mem_filter.mp hp3).2
      simpa using this
    · have := (List.mem_filter.mp hp4).2
      simpa using this
  · have := (List.mem_filter.mp hp2).2
    simpa using this

/-- Detaching a process whose gupid is carried by no other listed process
leaves a pool with no listed process of that gupid at all. -/
theorem detach_step_gupidFree (s : Pool) (v : PRef)
    (huniq : ∀ pr ∈ s.getProcesses, pr.proc.gupid = v.proc.gupid →
      pr.sgName = v.sgName ∧ pr.gName = v.gName) :
    (s.updateGroup v.sgName v.gName (Group.detach v.proc.gupid)).gupidFree
      v.proc.gupid := by
  intro sg' hsg' g' hg' p hp hpx
  unfold Pool.updateGroup at hsg'
  simp only [List.mem_map] at hsg'
  obtain ⟨sg, hsg, rfl⟩ := hsg'
  by_cases hn : sg.name = v.sgName
  · rw [if_pos hn] at hg'
    simp only [List.mem_map] at hg'
    obtain ⟨g, hg, rfl⟩ := hg'
    by_cases hgn : g.name = v.gName
    · rw [if_pos hgn] at hp
      exact Group.detach_gupidFree v.proc.gupid g p hp hpx
    · rw [if_neg hgn] at hp
      have hmem : (⟨sg.name, g.name, p⟩ : PRef) ∈ s.getProcesses := by
        unfold Pool.getProcesses
        simp only [List.mem_flatMap, List.mem_map]
        exact ⟨sg, hsg, g, hg, p, hp, rfl⟩
      exact hgn (huniq _ hmem hpx).2
  · rw [if_neg hn] at hg'
    have hmem : (⟨sg.name, g'.name, p⟩ : PRef) ∈ s.getProcesses := by
      unfold Pool.getProcesses
      simp only [List.mem_flatMap, List.mem_map]
      exact ⟨sg, hsg, g', hg', p, hp, rfl⟩
    exact hn (huniq _ hmem hpx).1

/-! ### Helper lemmas about SuperGroup names (for SuperGroup detach) -/

/-- No SuperGroup of the pool carries the given name. -/
def Pool.noSGNamed (n : String) (s : Pool) : Prop :=
  ∀ sg ∈ s.superGroups, sg.name ≠ n

theorem Pool.updateGroup_noSGNamed (n : String) (s : Pool) (a b : String)
    (f : Group → Group) (h : s.noSGNamed n) :
    (s.updateGroup a b f).noSGNamed n := by
  intro sg' hsg'
  unfold Pool.updateGroup at hsg'
  simp only [List.mem_map] at hsg'
  obtain ⟨sg, hsg, rfl⟩ := hsg'
  by_cases hn : sg.name = a
  · rw [if_pos hn]
    exact h sg hsg
  · rw [if_neg hn]
    exact h sg hsg

theorem spawnLoop_noSGNamed (n : String) (pred : Pool → Group → Bool) :
    ∀ (locs : List (String × String)) (s : Pool), s.noSGNamed n →
      ((spawnLoop pred s locs).1).noSGNamed n := by
  intro locs
  induction locs with
  | nil => intro s h; exact h
  | cons loc rest ih =>
    intro s h
    unfold spawnLoop
    rcases hlg : s.lookupGroup loc with - | g
    · exact ih s h
    · dsimp only
      have hupd := Pool.updateGroup_noSGNamed n s loc.1 loc.2 Group.spawnTrigger h
      split
      · split
        · exact hupd
        · exact ih _ hupd
      · exact ih s h

theorem possiblySpawn_noSGNamed (n : String) (s : Pool) (h : s.noSGNamed n) :
    (s.possiblySpawnMoreProcessesForExistingGroups).noSGNamed n := by
  have h1 := spawnLoop_noSGNamed n (fun _ g => g.isWaitingForCapacity)
    s.groupLocs s h
  show Pool.noSGNamed n
    (if (spawnLoop (fun _ g => g.isWaitingForCapacity) s s.groupLocs).2 = true
     then (spawnLoop (fun _ g => g.isWaitingForCapacity) s s.groupLocs).1
     else (spawnLoop (fun s' g => Group.shouldSpawn s'.utilization s'.max g)
       (spawnLoop (fun _ g => g.isWaitingForCapacity) s s.groupLocs).1
       ((spawnLoop (fun _ g => g.isWaitingForCapacity) s s.groupLocs).1).groupLocs).1)
  split
  · exact h1
  · exact spawnLoop_noSGNamed n _ _ _ h1

theorem find?_name_eq_none_of_noSGNamed (n : String) (s : Pool)
    (h : s.noSGNamed n) :
    s.superGroups.find? (fun sg => sg.name == n) = none := by
  rw [List.find?_eq_none]
  intro sg hsg
  simp only [beq_iff_eq]
  exact h sg hsg

/-! ### Claim theorems -/

/-- Claim C6.  Detaching a SuperGroup by name removes it from the SuperGroup
map, and the operation's trace is exactly the lock release followed by one
`GetAborted` callback (with a null session) per waiter of that SuperGroup's
wait list, in order — so every waiting callback is invoked exactly once, with
a null session and a `GetAborted` error, and only after the Pool lock has been
released. -/
theorem detachSuperGroup_aborts_waiters (s : Pool) (name : String)
    (sg : SuperGroup)
    (hfind : s.superGroups.find? (fun sg2 => sg2.name == name) = some sg)
    (hne : sg.getWaitlist ≠ []) :
    (s.detachSuperGroupByName name).1 = true ∧
    ((s.detachSuperGroupByName name).2.1).superGroups.find?
      (fun sg2 => sg2.name == name) = none ∧
    (s.detachSuperGroupByName name).2.2 =
      Event.unlock :: sg.getWaitlist.map
        (fun w => Event.callback w.callbackId none (some ErrKind.getAborted)) := by
  have hwl : sg.destroy.getWaitlist = sg.getWaitlist := rfl
  unfold Pool.detachSuperGroupByName
  rw [hfind]
  dsimp only
  refine ⟨rfl, ?_, ?_⟩
  · apply find?_name_eq_none_of_noSGNamed
    apply possiblySpawn_noSGNamed
    intro sg2 hsg2
    have := (List.mem_filter.mp hsg2).2
    simpa using this
  · rw [assignExceptionToGetWaiters, hwl]

/-- Claim C8.  Calling `detachProcess(gupid)` on a pool that holds an ALIVE
process with that gupid (and no other process with the same gupid, gupids
being globally unique) returns true; calling it again returns false and
leaves the pool state exactly as it was after the first call. -/
theorem detachProcess_idempotent (now now2 : Nat) (s : Pool) (x : String)
    (v : PRef)
    (hfind : s.findProcessByGupid x = some v)
    (halive : v.proc.lifeStatus = PLifeStatus.ALIVE)
    (huniq : ∀ pr ∈ s.getProcesses, pr.proc.gupid = x →
      pr.sgName = v.sgName ∧ pr.gName = v.gName) :
    (s.detachProcessByGupid now x).1 = true ∧
    ((s.detachProcessByGupid now x).2.detachProcessByGupid now2 x) =
      (false, (s.detachProcessByGupid now x).2) := by
  have hvx : v.proc.gupid = x := by
    have := List.find?_some hfind
    simpa using this
  have hfree1 : (s.updateGroup v.sgName v.gName
      (Group.detach v.proc.gupid)).gupidFree x := by
    rw [← hvx]
    apply detach_step_gupidFree
    intro pr hpr hpx
    exact huniq pr hpr (hvx ▸ hpx)
  have hfree2 : (((s.updateGroup v.sgName v.gName
      (Group.detach v.proc.gupid)).assignSessionsToGetWaiters now).1).gupidFree x :=
    assignSessionsToGetWaiters_gupidFree x now _ hfree1
  have hfree3 : ((((s.updateGroup v.sgName v.gName
      (Group.detach v.proc.gupid)).assignSessionsToGetWaiters
        now).1).possiblySpawnMoreProcessesForExistingGroups).gupidFree x := by
    have := possiblySpawn_gupidFree x _ hfree2
    exact this
  have hmain : s.detachProcessByGupid now x =
      (true, (((s.updateGroup v.sgName v.gName
        (Group.detach v.proc.gupid)).assignSessionsToGetWaiters
          now).1).possiblySpawnMoreProcessesForExistingGroups) := by
    unfold Pool.detachProcessByGupid Pool.detachProcessUnlocked
    rw [hfind]
    dsimp only
    rw [if_pos halive]
  have hr1 : (s.detachProcessByGupid now x).1 = true := by rw [hmain]
  refine ⟨hr1, ?_⟩
  have hnone : ((s.detachProcessByGupid now x).2).findProcessByGupid x = none := by
    rw [hmain]
    exact (findProcessByGupid_eq_none_iff _ x).mpr hfree3
  generalize hY : (s.detachProcessByGupid now x).2 = Y at hnone ⊢
  unfold Pool.detachProcessByGupid
  rw [hnone]

/-! ### Concrete pool states used by evaluations and witnesses -/

/-- A worker process with one `session` socket of concurrency 1. -/
def mkProc (g : String) (sess lu : Nat) : Process :=
  ⟨100, g, sess, 0, 1, lu, PLifeStatus.ALIVE, PEnabledStatus.ENABLED, false,
   true, [(0, ⟨"main", "tcp://127.0.0.1:3000", "session", 1, sess⟩)]⟩

/-- A group with the given name, `minProcesses` and enabled processes. -/
def mkGroup (n : String) (minP : Nat) (ps : List Process) : Group :=
  ⟨n, ⟨n, false, minP, 10⟩, ps, [], [], [], [], 0, false⟩

/-- A READY SuperGroup holding one group. -/
def mkSG (n : String) (g : Group) : SuperGroup := ⟨n, SGState.READY, [g], []⟩

/-- Request options for app group "N", not allowing eviction of busy
processes. -/
def c1opt1 : Options := ⟨"N", false, 1, 10⟩

/-- Request options for app group "N", allowing eviction of busy processes. -/
def c1opt2 : Options := ⟨"N", true, 1, 10⟩

/-- A full pool (max = 2) with two app groups, each one busy process. -/
def c1pool : Pool :=
  ⟨2, 60000000,
   [mkSG "A" (mkGroup "A" 1 [mkProc "pa" 1 100]),
    mkSG "B" (mkGroup "B" 1 [mkProc "pb" 1 200])], []⟩

/-- After `asyncGet` for app group "N": no process is idle and trashing is not
allowed, so a waiter for "N" lands on the pool-level wait list. -/
def c1s1 : Pool := (c1pool.asyncGet 1000 c1opt1 1).1

/-- After a second `asyncGet` for "N" that allows trashing non-idle processes:
the eviction branch detaches the least-recently-used busy process and creates
SuperGroup "N" — while the first call's waiter for "N" is still on the
pool-level wait list. -/
def c1s2 : Pool := (c1s1.asyncGet 1001 c1opt2 2).1

/-- Claim C1, evaluated at the failing input.  Starting from a state
satisfying both pool invariants, two `asyncGet` calls for the same absent app
group (the second one permitting trashing of non-idle processes) drive the
pool into a state where invariant 2 — every pool-level waiter targets an
app-group name absent from the SuperGroup map — is violated: the waiter for
"N" coexists with the newly created SuperGroup "N".
`Pool::verifyExpensiveInvariants`, which `asyncGet` runs at the end of this
very branch (Pool.h 993), asserts exactly this invariant, so the code
contradicts its own assertion. -/
theorem asyncGet_violates_waitlist_invariant :
    c1pool.inv1 = true ∧ c1pool.inv2 = true ∧
    c1s1.inv1 = true ∧ c1s1.inv2 = true ∧
    c1s2.inv1 = true ∧ c1s2.inv2 = false ∧
    c1s2.getWaitlist.map (fun w => w.options.appGroupName) = ["N"] ∧
    (c1s2.findMatchingSuperGroup c1opt1).isSome = true :=
  ⟨rfl, rfl, rfl, rfl, rfl, rfl, rfl, rfl⟩

/-- The idle process of the C2 counterexample state. -/
def c2proc : Process := mkProc "pa" 0 50

/-- Its group: one enabled process, with `minProcesses = 2`. -/
def c2group : Group := mkGroup "A" 2 [c2proc]

/-- A full pool (max = 1) holding only that group. -/
def c2pool : Pool := ⟨1, 60000000, [mkSG "A" c2group], []⟩

/-- Request options for the absent app group "B". -/
def c2opt : Options := ⟨"B", false, 1, 10⟩

/-- Claim C2, counterexample.  `Pool::findOldestIdleProcess` selects the idle
process of a group whose `enabledCount` (1) does not exceed its
`minProcesses` option (2), and the `asyncGet` eviction branch consequently
evicts it instead of pushing the request onto the pool-level wait list — the
claim's condition "whose Group has enabledCount > minProcesses" is not
checked by the code (the garbage collector checks it, Pool.h 573, but the
eviction scan at Pool.h 242-267 does not). -/
theorem findOldestIdle_ignores_minProcesses :
    c2pool.findOldestIdleProcess = some ⟨"A", "A", c2proc⟩ ∧
    c2group.enabledProcesses.length = 1 ∧
    c2group.options.minProcesses = 2 ∧
    c2pool.atFullCapacityB = true ∧
    c2pool.findMatchingSuperGroup c2opt = none ∧
    (c2pool.asyncGet 1000 c2opt 7).1.getWaitlist = [] :=
  ⟨rfl, rfl, rfl, rfl, rfl, rfl⟩

/-- Claim C2, amended.  When `asyncGet` runs at full capacity with no
SuperGroup for the requested name, the eviction candidate of
`findOldestIdleProcess` is, among ALL enabled processes with `sessions == 0`
(with no condition on the group's `minProcesses`), one of minimal `lastUsed`;
and the request is pushed onto the pool-level wait list exactly when there is
no idle enabled process and (unless the caller permits trashing non-idle
processes, in which case any enabled process is eligible) nothing can be
evicted. -/
theorem asyncGet_oldest_idle_eviction (now : Nat) (s : Pool) (o : Options)
    (cb : Nat)
    (hwf : ∀ r ∈ s.allEnabled, r.proc.concurrency ≤ intMax)
    (hsg : s.findMatchingSuperGroup o = none)
    (hfull : s.atFullCapacityB = true) :
    (s.findOldestIdleProcess = none ↔
      ∀ r ∈ s.allEnabled, r.proc.sessions ≠ 0) ∧
    (∀ r, s.findOldestIdleProcess = some r →
      r ∈ s.allEnabled ∧ r.proc.sessions = 0 ∧
      ∀ c ∈ s.allEnabled, c.proc.sessions = 0 →
        r.proc.lastUsed ≤ c.proc.lastUsed) ∧
    (s.findBestProcessToTrash = none ↔ s.allEnabled = []) ∧
    ((s.asyncGet now o cb).1.getWaitlist = s.getWaitlist ++ [⟨o, cb⟩] ↔
      (s.findOldestIdleProcess = none ∧
        (o.allowTrashingNonIdleProcesses = false ∨
          s.findBestProcessToTrash = none))) := by
  have hiff : ∀ r ∈ s.allEnabled, (r.proc.utilization = 0 ↔ r.proc.sessions = 0) :=
    fun r hr => utilization_eq_zero_iff r.proc (hwf r hr)
  refine ⟨?_, ?_, ?_, ?_⟩
  · unfold Pool.findOldestIdleProcess
    rw [foi_fold_none_iff]
    constructor
    · intro h r hr hs0
      exact h.2 r hr ((hiff r hr).mpr hs0)
    · intro h
      exact ⟨rfl, fun r hr hu => h r hr ((hiff r hr).mp hu)⟩
  · intro r hr
    have hmem := foi_fold_mem s.allEnabled none r hr
    rcases hmem with h1 | ⟨h1, h2⟩
    · cases h1
    · refine ⟨h1, (hiff r h1).mp h2, ?_⟩
      intro c hc hcs
      exact foi_fold_min s.allEnabled none r hr c hc ((hiff c hc).mpr hcs)
  · unfold Pool.findBestProcessToTrash
    rw [fbt_fold_none_iff]
    simp
  · have hwait_evict : ∀ (v : PRef),
        ((s.updateGroup v.sgName v.gName
          (Group.detach v.proc.gupid)).createSuperGroupAndAsyncGetFromIt
            now o cb).getWaitlist = s.getWaitlist := fun v => rfl
    have hne : s.getWaitlist ≠ s.getWaitlist ++ [(⟨o, cb⟩ : GetWaiter)] := by
      intro h
      have := congrArg List.length h
      simp at this
    unfold Pool.asyncGet
    rw [hsg]
    dsimp only
    rw [hfull]
    rw [if_neg (by decide : ¬((!true : Bool) = true))]
    rcases hfoi : s.findOldestIdleProcess with - | v
    · dsimp only
      by_cases htr : o.allowTrashingNonIdleProcesses = true
      · rw [htr]
        rw [if_pos rfl]
        rcases hfbt : s.findBestProcessToTrash with - | v2
        · dsimp only
          constructor
          · intro _
            exact ⟨rfl, Or.inr rfl⟩
          · intro _
            rfl
        · dsimp only
          rw [hwait_evict v2]
          constructor
          · intro h
            exact absurd h hne
          · rintro ⟨-, h2 | h2⟩
            · exact Bool.noConfusion h2
            · exact Option.noConfusion h2
      · have htr2 : o.allowTrashingNonIdleProcesses = false :=
          Bool.eq_false_iff.mpr htr
        rw [htr2]
        rw [if_neg (by decide : ¬((false : Bool) = true))]
        dsimp only
        constructor
        · intro _
          exact ⟨rfl, Or.inl rfl⟩
        · intro _
          rfl
    · dsimp only
      rw [hwait_evict v]
      constructor
      · intro h
        exact absurd h hne
      · rintro ⟨h1, -⟩
        exact Option.noConfusion h1

/-- Claim C2, amended — witness at the counterexample state: no process is
idle-eligible other than the one the code picks, pushing does not happen. -/
theorem asyncGet_oldest_idle_eviction_witness :
    (c2pool.asyncGet 1000 c2opt 7).1.getWaitlist =
        c2pool.getWaitlist ++ [⟨c2opt, 7⟩] ↔
      (c2pool.findOldestIdleProcess = none ∧
        (c2opt.allowTrashingNonIdleProcesses = false ∨
          c2pool.findBestProcessToTrash = none)) :=
  (asyncGet_oldest_idle_eviction 1000 c2pool c2opt 7 (by decide) (by decide)
    (by decide)).2.2.2

/-- Claim C3.  On a garbage-collection pass, (1) every detached process had
`sessions == 0` and `now >= lastUsed + maxIdleTime` with the group's current
`enabledCount` above `minProcesses` at the moment it was examined (the
`minP < count` test of `gcDetachPass`); (2) conversely, a process that
satisfies all three conditions at the moment it is examined IS detached;
(3) a group already at or below `minProcesses` loses nothing; (4) one pass
never brings a group's enabled count below `min enabledCount minProcesses`;
(5) neither does any sequence of passes, for any `maxIdleTime` and any clock
values; (6) the pool-level `realGarbageCollect` applies exactly this pass to
every group; and (7) if a pass leaves an idle-expired process enabled, it is
because the floor was reached: the group ends the pass with exactly
`minProcesses` enabled processes. -/
theorem gc_pass_and_floor :
    (∀ (now maxIdle minP count : Nat) (l : List Process),
      ∀ p ∈ (gcDetachPass now maxIdle minP count l).2,
        p.sessions = 0 ∧ p.lastUsed + maxIdle ≤ now) ∧
    (∀ (now maxIdle minP count : Nat) (q : Process) (rest : List Process),
      q.sessions = 0 → q.lastUsed + maxIdle ≤ now → minP < count →
      (gcDetachPass now maxIdle minP count (q :: rest)).2 =
        q :: (gcDetachPass now maxIdle minP (count - 1) rest).2) ∧
    (∀ (now maxIdle minP count : Nat) (l : List Process), count ≤ minP →
      (gcDetachPass now maxIdle minP count l).2 = []) ∧
    (∀ (now maxIdle : Nat) (g : Group),
      min g.enabledProcesses.length g.options.minProcesses ≤
        (g.garbageCollect now maxIdle).enabledProcesses.length) ∧
    (∀ (maxIdle : Nat) (nows : List Nat) (g : Group),
      min g.enabledProcesses.length g.options.minProcesses ≤
        (Group.gcRuns maxIdle nows g).enabledProcesses.length) ∧
    (∀ (now : Nat) (s : Pool) (sg : SuperGroup) (g : Group),
      sg ∈ s.superGroups → g ∈ sg.groups →
      ∃ sg2 ∈ (s.realGarbageCollect now).superGroups,
        g.garbageCollect now s.maxIdleTime ∈ sg2.groups) ∧
    (∀ (now maxIdle : Nat) (g : Group),
      g.options.minProcesses ≤ g.enabledProcesses.length →
      (∃ p ∈ (g.garbageCollect now maxIdle).enabledProcesses,
        p.sessions = 0 ∧ p.lastUsed + maxIdle ≤ now) →
      (g.garbageCollect now maxIdle).enabledProcesses.length =
        g.options.minProcesses) := by
  refine ⟨?_, ?_, ?_, ?_, ?_, ?_, ?_⟩
  · intro now maxIdle minP count l
    exact gcDetachPass_detached_cond now maxIdle minP l count
  · intro now maxIdle minP count q rest h1 h2 h3
    rw [gcDetachPass_cons_pos now maxIdle minP count q rest ⟨h1, h2, h3⟩]
  · intro now maxIdle minP count l h
    exact gcDetachPass_no_detach now maxIdle minP l count h
  · intro now maxIdle g
    exact garbageCollect_floor now maxIdle g
  · intro maxIdle nows g
    exact gcRuns_floor maxIdle nows g
  · intro now s sg g hsg hg
    refine ⟨{ sg with
        groups := sg.groups.map (Group.garbageCollect now s.maxIdleTime) },
      ?_, ?_⟩
    · exact List.mem_map_of_mem _ hsg
    · exact List.mem_map_of_mem _ hg
  · intro now maxIdle g hge hex
    have hcap := gcDetachPass_kept_cap now maxIdle g.options.minProcesses
      g.enabledProcesses g.enabledProcesses.length hex
    have hlen := gcDetachPass_lengths now maxIdle g.options.minProcesses
      g.enabledProcesses g.enabledProcesses.length
    have hle := gcDetachPass_detached_le now maxIdle g.options.minProcesses
      g.enabledProcesses g.enabledProcesses.length
    show (gcDetachPass now maxIdle g.options.minProcesses
      g.enabledProcesses.length g.enabledProcesses).1.length =
        g.options.minProcesses
    omega

/-- A group with two idle-expired processes above the floor, one idle-expired
process protected by the floor, and one busy process. -/
def c3group : Group :=
  mkGroup "G" 2
    [mkProc "p1" 0 10, mkProc "p2" 0 20, mkProc "p3" 0 30, mkProc "p4" 1 5]

/-- Claim C3 — witness: a pass on `c3group` (minProcesses = 2) at a time when
every idle process is long expired stops detaching exactly at the floor. -/
theorem gc_pass_and_floor_witness :
    min c3group.enabledProcesses.length c3group.options.minProcesses ≤
      (c3group.garbageCollect 1000000000 1).enabledProcesses.length ∧
    (c3group.garbageCollect 1000000000 1).enabledProcesses.length =
      c3group.options.minProcesses :=
  ⟨gc_pass_and_floor.2.2.2.1 1000000000 1 c3group,
   gc_pass_and_floor.2.2.2.2.2.2 1000000000 1 c3group (by decide)
     ⟨mkProc "p3" 0 30, by decide, by decide, by decide⟩⟩

/-- Claim C4.  For an ALIVE process, `newSession` pops the least-utilized
session socket from the per-process priority queue (its stored priority is
minimal in the queue); if that socket is at full capacity the result is null
(and the socket stays popped); otherwise the socket's and the process's
session counts each grow by one, `processed` grows by one, `lastUsed` becomes
the current time, the socket is re-pushed keyed by its updated utilization,
and the returned session is bound to that socket. -/
theorem newSession_spec (now : Nat) (p : Process) (pr : Nat) (so : Socket)
    (rest : List (Nat × Socket))
    (halive : p.lifeStatus = PLifeStatus.ALIVE)
    (hpop : popMinBy Prod.fst p.sessionSockets = some ((pr, so), rest)) :
    (∀ e ∈ p.sessionSockets, pr ≤ e.1) ∧
    (so.atFullCapacity = true →
      p.newSession now = (none, { p with sessionSockets := rest })) ∧
    (so.atFullCapacity = false →
      p.newSession now =
        (some ⟨p.gupid, so.name⟩,
         { p with
             sessions := p.sessions + 1,
             processed := p.processed + 1,
             lastUsed := now,
             sessionSockets :=
               (Socket.utilization { so with sessions := so.sessions + 1 },
                { so with sessions := so.sessions + 1 }) :: rest })) := by
  refine ⟨?_, ?_, ?_⟩
  · intro e he
    exact popMinBy_min Prod.fst p.sessionSockets (pr, so) rest hpop e he
  · intro hfull
    unfold Process.newSession
    rw [hpop]
    dsimp only
    rw [if_pos hfull]
  · intro hnful
    unfold Process.newSession
    rw [hpop]
    dsimp only
    rw [if_neg (by simp [hnful])]

/-- A one-socket idle process for the `newSession` witness. -/
def c4proc : Process := mkProc "p" 0 7

/-- Claim C4 — witness: creating a session on `c4proc` returns a session on
its socket and bumps the counters. -/
theorem newSession_spec_witness :
    (c4proc.newSession 55).1 = some ⟨"p", "main"⟩ ∧
    (c4proc.newSession 55).2.sessions = c4proc.sessions + 1 ∧
    (c4proc.newSession 55).2.processed = c4proc.processed + 1 ∧
    (c4proc.newSession 55).2.lastUsed = 55 := by
  have h := (newSession_spec 55 c4proc 0
    ⟨"main", "tcp://127.0.0.1:3000", "session", 1, 0⟩ [] rfl (by decide)).2.2
    (by decide)
  refine ⟨?_, ?_, ?_, ?_⟩
  · rw [h]
    rfl
  · rw [h]
  · rw [h]
  · rw [h]

/-- Claim C5.  If, after a successful handshake and spawn-request write, the
child answers `Error`, then well-formed `key: value` metadata lines, a blank
line, and a free-form body until EOF, negotiation raises a `SpawnException`
of kind `APP_STARTUP_EXPLAINABLE_ERROR` whose error page is exactly that body
and whose HTML flag is set exactly when the `html` metadata value equals
`"true"`; no `Process` is constructed on this path. -/
theorem spawn_explainable_error (sc : NegotiationScript)
    (attrs : List (String × String))
    (hh : sc.handshakeLine = "I have control 1.0\n")
    (hw : sc.writeOutcome = none)
    (hr : sc.responseLine = "Error\n")
    (hp : parseErrorAttrsLoop [] sc.furtherLines = some attrs) :
    negotiateSpawn sc =
      NegoResult.spawnErr
        ⟨"An error occured while starting the web application.",
         sc.bodyRemainder, attrGet attrs "html" == "true",
         SpawnErrorKind.APP_STARTUP_EXPLAINABLE_ERROR⟩ ∧
    ∀ sockets, negotiateSpawn sc ≠ NegoResult.proc sockets := by
  have hmain : negotiateSpawn sc =
      NegoResult.spawnErr
        ⟨"An error occured while starting the web application.",
         sc.bodyRemainder, attrGet attrs "html" == "true",
         SpawnErrorKind.APP_STARTUP_EXPLAINABLE_ERROR⟩ := by
    unfold negotiateSpawn
    rw [hh, hw, hr]
    rw [if_pos rfl]
    unfold sendSpawnRequest
    dsimp only
    rw [if_neg (by decide : ¬("Error\n" = "Ready\n"))]
    rw [if_pos rfl]
    unfold handleSpawnErrorResponse
    rw [hp]
  refine ⟨hmain, ?_⟩
  intro sockets
  rw [hmain]
  intro h
  exact NegoResult.noConfusion h

/-- The negotiation script of scenario 6 of the spec: the child reports an
HTML error page. -/
def c5script : NegotiationScript :=
  ⟨"I have control 1.0\n", none, "Error\n", ["html: true\n", "\n"],
   "<html>boom</html>", "", true⟩

/-- Claim C5 — witness at the literal scenario of the spec. -/
theorem spawn_explainable_error_witness :
    negotiateSpawn c5script =
      NegoResult.spawnErr
        ⟨"An error occured while starting the web application.",
         "<html>boom</html>", true,
         SpawnErrorKind.APP_STARTUP_EXPLAINABLE_ERROR⟩ :=
  (spawn_explainable_error c5script [("html", "true")] rfl rfl rfl
    (by decide)).1

/-- Claim C9.  If writing the spawn request fails with a `SystemException`
whose code is EPIPE, negotiation behaves exactly as if the write had
succeeded — it proceeds to read the child's response, so the child's own
error report can surface; a `SystemException` with any other code propagates
to the caller. -/
theorem epipe_swallowed (sc : NegotiationScript)
    (hh : sc.handshakeLine = "I have control 1.0\n") :
    negotiateSpawn { sc with writeOutcome := some EPIPE } =
      negotiateSpawn { sc with writeOutcome := none } ∧
    ∀ c, c ≠ EPIPE → negotiateSpawn { sc with writeOutcome := some c } =
      NegoResult.sysErr c := by
  have h1 : ∀ u, negotiateSpawn { sc with writeOutcome := u } =
      (match sendSpawnRequest u with
       | Except.error e => NegoResult.sysErr e
       | Except.ok _ =>
         if sc.responseLine = "Ready\n" then
           handleSpawnResponse { sc with writeOutcome := u }
         else if sc.responseLine = "Error\n" then
           NegoResult.spawnErr
             (handleSpawnErrorResponse { sc with writeOutcome := u })
         else
           NegoResult.spawnErr
             (protoErr "It sent an unknown response type." sc.stderrOutput)) := by
    intro u
    unfold negotiateSpawn
    dsimp only
    rw [hh]
    rw [if_pos rfl]
  constructor
  · rw [h1 (some EPIPE), h1 none]
    rfl
  · intro c hc
    rw [h1 (some c)]
    unfold sendSpawnRequest
    dsimp only
    rw [if_neg hc]

/-- A negotiation script in which the child advertises one session socket
and becomes ready. -/
def c9script : NegotiationScript :=
  ⟨"I have control 1.0\n", none, "Ready\n",
   ["socket: main;tcp://127.0.0.1:3000;session;1\n", "\n"], "", "", true⟩

/-- Claim C9 — witness: with an otherwise successful `Ready` script, EPIPE on
the write is swallowed while EACCES (13) propagates. -/
theorem epipe_swallowed_witness :
    negotiateSpawn { c9script with writeOutcome := some EPIPE } =
      negotiateSpawn { c9script with writeOutcome := none } ∧
    negotiateSpawn { c9script with writeOutcome := some 13 } =
      NegoResult.sysErr 13 :=
  ⟨(epipe_swallowed c9script rfl).1,
   (epipe_swallowed c9script rfl).2 13 (by decide)⟩

/-- A process is known to be gone: it is a dummy or its cached
`m_osProcessExists` is false. -/
def Process.osGone (p : Process) : Prop :=
  p.dummy = true ∨ p.m_osProcessExists = false

theorem osProcessExists_of_gone (p : Process) (h : p.osGone) :
    ∀ k e, p.osProcessExists k e = (false, p) := by
  intro k e
  unfold Process.osProcessExists
  rw [if_neg]
  rcases h with h | h
  · simp [h]
  · simp [h]

theorem osGone_after_false (p : Process) (k e : Bool)
    (h : (p.osProcessExists k e).1 = false) :
    ((p.osProcessExists k e).2).osGone := by
  unfold Process.osProcessExists at h ⊢
  by_cases hc : (!p.dummy && p.m_osProcessExists) = true
  · rw [if_pos hc] at h ⊢
    exact Or.inr h
  · rw [if_neg hc] at h ⊢
    show p.dummy = true ∨ p.m_osProcessExists = false
    cases hd : p.dummy with
    | true => exact Or.inl rfl
    | false =>
      cases hm : p.m_osProcessExists with
      | false => exact Or.inr rfl
      | true =>
        exact absurd
          (show (!p.dummy && p.m_osProcessExists) = true by rw [hd, hm]; rfl)
          hc

theorem osRunAll_gone (ks : List (Bool × Bool)) :
    ∀ (p : Process), p.osGone →
      osRunAll p ks = (List.replicate ks.length false, p) := by
  induction ks with
  | nil => intro p h; rfl
  | cons ke rest ih =>
    intro p h
    obtain ⟨k, e⟩ := ke
    unfold osRunAll
    rw [osProcessExists_of_gone p h k e]
    dsimp only
    rw [ih p h]
    rfl

theorem osProcessExists_preserves_fields (p : Process) (k e : Bool) :
    ((p.osProcessExists k e).2).sessions = p.sessions ∧
    ((p.osProcessExists k e).2).dummy = p.dummy := by
  unfold Process.osProcessExists
  split
  · exact ⟨rfl, rfl⟩
  · exact ⟨rfl, rfl⟩

/-- Claim C10.  `osProcessExists` is monotone in falsehood: a dummy process
always reads false; and once a call has returned false (the cached
`m_osProcessExists` is then false), every subsequent call returns false
regardless of the `kill(pid, 0)` outcomes — so `canBeShutDown` (sessions == 0
and OS process gone) never flips back from true to false through PID reuse:
after a false reading, `canBeShutDown` keeps answering true (and keeps the
process state unchanged) for every later syscall outcome. -/
theorem osProcessExists_monotone_false (p : Process) (k e : Bool)
    (ks : List (Bool × Bool))
    (hfalse : (p.osProcessExists k e).1 = false) :
    (∀ q : Process, q.dummy = true → ∀ k2 e2,
      (q.osProcessExists k2 e2).1 = false) ∧
    (osRunAll (p.osProcessExists k e).2 ks).1 =
      List.replicate ks.length false ∧
    (p.sessions = 0 → ∀ k2 e2,
      ((p.osProcessExists k e).2).canBeShutDown k2 e2 =
        (true, (p.osProcessExists k e).2)) := by
  have hgone := osGone_after_false p k e hfalse
  refine ⟨?_, ?_, ?_⟩
  · intro q hq k2 e2
    rw [osProcessExists_of_gone q (Or.inl hq) k2 e2]
  · rw [osRunAll_gone ks _ hgone]
  · intro hs k2 e2
    unfold Process.canBeShutDown
    rw [osProcessExists_of_gone _ hgone k2 e2]
    dsimp only
    have hps := (osProcessExists_preserves_fields p k e).1
    rw [hps, hs]
    rfl

/-- A real (non-dummy) process whose OS process has vanished: the first
osProcessExists call observes `kill` failing with ESRCH. -/
def c10proc : Process := mkProc "z" 0 9

/-- Claim C10 — witness: after one call that observes ESRCH, every later call
returns false even when `kill(pid, 0)` would succeed again (PID reuse), and
`canBeShutDown` stays true. -/
theorem osProcessExists_monotone_false_witness :
    (osRunAll (c10proc.osProcessExists false true).2
      [(true, false), (false, true), (true, true)]).1 =
      List.replicate 3 false ∧
    ((c10proc.osProcessExists false true).2).canBeShutDown true false =
      (true, (c10proc.osProcessExists false true).2) := by
  have h := osProcessExists_monotone_false c10proc false true
    [(true, false), (false, true), (true, true)] (by decide)
  exact ⟨h.2.1, h.2.2 rfl true false⟩

/-- The pool state for the detach-idempotence witness. -/
def c8pool : Pool :=
  ⟨6, 60000000, [mkSG "A" (mkGroup "A" 1 [mkProc "g1" 0 100])], []⟩

/-- Claim C8 — witness: detaching gupid "g1" twice. -/
theorem detachProcess_idempotent_witness :
    (c8pool.detachProcessByGupid 1000 "g1").1 = true ∧
    ((c8pool.detachProcessByGupid 1000 "g1").2.detachProcessByGupid 1001
      "g1") = (false, (c8pool.detachProcessByGupid 1000 "g1").2) :=
  detachProcess_idempotent 1000 1001 c8pool "g1"
    ⟨"A", "A", mkProc "g1" 0 100⟩ (by decide) (by decide) (by decide)

/-- An INITIALIZING SuperGroup with two queued waiters. -/
def c6sg : SuperGroup :=
  ⟨"X", SGState.INITIALIZING, [],
   [⟨⟨"X", false, 1, 10⟩, 5⟩, ⟨⟨"X", false, 1, 10⟩, 6⟩]⟩

/-- A pool holding only that SuperGroup. -/
def c6pool : Pool := ⟨6, 60000000, [c6sg], []⟩

/-- Claim C6 — witness: detaching "X" removes it and schedules exactly one
`GetAborted` callback per waiter, after the unlock. -/
theorem detachSuperGroup_aborts_waiters_witness :
    (c6pool.detachSuperGroupByName "X").1 = true ∧
    ((c6pool.detachSuperGroupByName "X").2.1).superGroups.find?
      (fun sg2 => sg2.name == "X") = none ∧
    (c6pool.detachSuperGroupByName "X").2.2 =
      Event.unlock :: c6sg.getWaitlist.map
        (fun w => Event.callback w.callbackId none (some ErrKind.getAborted)) :=
  detachSuperGroup_aborts_waiters c6pool "X" c6sg (by decide) (by decide)

end Passenger
